import Mathlib

/-!
Shallow embedding of the spectral-observation stacking engine of
`gammapy/spectrum/observation.py` (classes `SpectrumObservation`,
`SpectrumObservationList`, `SpectrumObservationStacker`, and the
`SpectrumStats` helpers), together with theorems checking the
natural-language specification against it.

Numeric arrays are modelled as `List ℚ`.  Effective-area and
energy-dispersion data, whose entries can be IEEE NaN, are modelled as
`List (Option ℚ)` with `none` standing for NaN; results of array division
are modelled by the type `FVal` which also represents the IEEE infinities
produced by division by zero.  Components of the repository that are not
part of the provided sources (`PHACountsSpectrum.counts_in_safe_range`,
`EffectiveAreaTable.evaluate`, `EnergyDispersion.pdf_in_safe_range`,
`ObservationStats.stack`) are modelled from the specification; each such
definition carries a doc comment saying so.
-/

namespace Gammapy

/-- Model of `gammapy.spectrum.PHACountsSpectrum`: a counts vector over an
energy-edge grid (`energy` has one more entry than `data`), with the
OGIP metadata fields used by the stacker.  `backscal` models the
`_backscal_array` per-bin form (a scalar backscal in the source is
broadcast to an array of that value).  Attributes that are Python `None`
on a freshly stacked vector are modelled by sentinel empties/zeros until
`setup_counts_vectors` overwrites them.  `obs_id` is a list because the
stacker assigns the list of all input ids to the stacked vector
(a plain observation holds a singleton). -/
structure PHACountsSpectrum where
  energy : List ℚ
  data : List ℚ
  quality : List Bool
  backscal : List ℚ
  lo_threshold : ℚ
  hi_threshold : ℚ
  obs_id : List ℤ
  livetime : ℚ
deriving DecidableEq

/-- Number of energy bins: one less than the number of edges. -/
def PHACountsSpectrum.nbins (s : PHACountsSpectrum) : ℕ :=
  s.energy.length - 1

/-- Safety of reco bin `k` for an energy grid with quality flags and
thresholds: both bin edges lie inside `[lo, hi]` and the bin is not
quality-flagged.  Modelled from the spec: `bins_in_safe_range` of
`PHACountsSpectrum` ("the ordered set of bin indices whose bin
center (or edge, per convention) lies within [lo_threshold, hi_threshold]
and whose quality flag is not set") is not part of the provided sources;
the bin-edge convention is fixed here. -/
def binSafeCore (energy : List ℚ) (quality : List Bool) (lo hi : ℚ) (k : ℕ) : Bool :=
  decide (lo ≤ energy.getD k 0) && decide (energy.getD (k + 1) 0 ≤ hi) &&
    !(quality.getD k false)

/-- Safety of bin `k` of a counts vector. -/
def PHACountsSpectrum.binSafe (s : PHACountsSpectrum) (k : ℕ) : Bool :=
  binSafeCore s.energy s.quality s.lo_threshold s.hi_threshold k

/-- Entry `k` of `counts_in_safe_range`.  Modelled from the spec:
"`counts_in_safe_range` returns a counts array identical to raw counts
inside that set and zero elsewhere". -/
def PHACountsSpectrum.countsInSafeRangeAt (s : PHACountsSpectrum) (k : ℕ) : ℚ :=
  if s.binSafe k then s.data.getD k 0 else 0

/-- Model of `gammapy.irf.EffectiveAreaTable`: area per true-energy bin.
`none` entries stand for IEEE NaN values. -/
structure EffectiveAreaTable where
  energy : List ℚ
  data : List (Option ℚ)
deriving DecidableEq

/-- Value of `aeff.evaluate(fill_nan=True)` at true bin `l`.  Modelled from
the spec: "Any NaN entries in a per-observation aeff are treated as zero
contribution for that observation at that true-energy bin before
weighting". -/
def EffectiveAreaTable.evaluateFillNanAt (a : EffectiveAreaTable) (l : ℕ) : ℚ :=
  (a.data.getD l none).getD 0

/-- Model of `gammapy.irf.EnergyDispersion`: probability matrix indexed as
`data[l][k]` with `l` a true-energy bin and `k` a reco-energy bin (the
source stores the matrix with shape true × reco).  `none` entries stand
for IEEE NaN. -/
structure EnergyDispersion where
  e_true : List ℚ
  e_reco : List ℚ
  data : List (List (Option ℚ))
deriving DecidableEq

/-- Raw matrix entry of an energy dispersion at true bin `l`, reco bin `k`. -/
def EnergyDispersion.entry (e : EnergyDispersion) (l k : ℕ) : Option ℚ :=
  (e.data.getD l []).getD k (some 0)

/-- Whether reco bin `k` of a reco-edge grid lies inside the energy
thresholds — the indicator ε_jk of the stacker docstring. -/
def recoSafeCore (e_reco : List ℚ) (lo hi : ℚ) (k : ℕ) : Bool :=
  decide (lo ≤ e_reco.getD k 0) && decide (e_reco.getD (k + 1) 0 ≤ hi)

/-- Whether reco bin `k` of the dispersion's reco grid lies inside the
energy thresholds. -/
def EnergyDispersion.recoSafe (e : EnergyDispersion) (lo hi : ℚ) (k : ℕ) : Bool :=
  recoSafeCore e.e_reco lo hi k

/-- Entry of `edisp.pdf_in_safe_range(lo, hi)`: the raw entry inside the
threshold range and zero outside it.  Modelled from the spec (stage 3:
the matrix is multiplied by `safe_j[k]`, "1 if reco-bin k is inside
observation j's safe range, else 0"); the routine itself is not part of
the provided sources. -/
def EnergyDispersion.pdfInSafeRangeAt (e : EnergyDispersion) (lo hi : ℚ) (l k : ℕ) :
    Option ℚ :=
  if e.recoSafe lo hi k then e.entry l k else some 0

/-- Model of `gammapy.spectrum.SpectrumObservation` as consumed by the
stacker.  In the source `off_vector` and `edisp` are optional constructor
arguments, but every stacking stage dereferences both unconditionally, so
stacker inputs are modelled with both present; `SpectrumObservation.read`
returns a separate record (`ReadResult`) with the optional fields. -/
structure SpectrumObservation where
  on_vector : PHACountsSpectrum
  aeff : EffectiveAreaTable
  off_vector : PHACountsSpectrum
  edisp : EnergyDispersion
deriving DecidableEq

/-- Property `livetime`: delegates to the on vector. -/
def SpectrumObservation.livetime (o : SpectrumObservation) : ℚ :=
  o.on_vector.livetime

/-- Property `e_reco`: the on vector's energy edges. -/
def SpectrumObservation.e_reco (o : SpectrumObservation) : List ℚ :=
  o.on_vector.energy

/-- Property `e_true`: the effective-area table's energy edges. -/
def SpectrumObservation.e_true (o : SpectrumObservation) : List ℚ :=
  o.aeff.energy

/-- Property `nbins`: number of reco-energy bins. -/
def SpectrumObservation.nbins (o : SpectrumObservation) : ℕ :=
  o.on_vector.nbins

/-- Property `lo_threshold`: delegates to the on vector. -/
def SpectrumObservation.lo_threshold (o : SpectrumObservation) : ℚ :=
  o.on_vector.lo_threshold

/-- Property `hi_threshold`: delegates to the on vector. -/
def SpectrumObservation.hi_threshold (o : SpectrumObservation) : ℚ :=
  o.on_vector.hi_threshold

/-- Property `obs_id`: delegates to the on vector. -/
def SpectrumObservation.obsId (o : SpectrumObservation) : List ℤ :=
  o.on_vector.obs_id

/-- Property `SpectrumObservationList.total_livetime`: the sum of the
members' livetimes (the source converts each to seconds and sums; all
livetimes are modelled in seconds). -/
def total_livetime (l : List SpectrumObservation) : ℚ :=
  (l.map (fun o => o.livetime)).sum

/-- Property `SpectrumObservationList.obs_id`: the ids of all members, in
order.  The source builds the Python list `[o.obs_id for o in self]`;
since stacked vectors carry lists of ids, the model concatenates. -/
def list_obs_id (l : List SpectrumObservation) : List ℤ :=
  (l.map (fun o => o.obsId)).flatten

/-- Counts vector standing for the crash of `stack_counts_spectrum` on an
empty input (the source indexes `counts_spectrum_list[0]`); the stacker
theorems all assume a nonempty observation list. -/
def emptyPHA : PHACountsSpectrum :=
  { energy := [], data := [], quality := [], backscal := [],
    lo_threshold := 0, hi_threshold := 0, obs_id := [], livetime := 0 }

/-- Model of `SpectrumObservationStacker.stack_counts_spectrum`: the data
is the per-bin sum of the inputs' `counts_in_safe_range`, the quality is
the per-bin logical OR of the inputs' quality flags, the energy grid is
the first input's grid (via the deep-copied template); attributes the
constructor leaves as Python `None` are the sentinel defaults of
`emptyPHA`. -/
def stack_counts_spectrum (lst : List PHACountsSpectrum) : PHACountsSpectrum :=
  match lst with
  | [] => emptyPHA
  | t :: _ =>
    let nb := t.nbins
    { energy := t.energy
      data := (List.range nb).map
        (fun k => (lst.map (fun s => s.countsInSafeRangeAt k)).sum)
      quality := (List.range nb).map
        (fun k => lst.any (fun s => s.quality.getD k false))
      backscal := []
      lo_threshold := 0
      hi_threshold := 0
      obs_id := []
      livetime := 0 }

/-- Model of `stack_on_vector`: stack the members' on vectors. -/
def stack_on_vector (l : List SpectrumObservation) : PHACountsSpectrum :=
  stack_counts_spectrum (l.map (fun o => o.on_vector))

/-- Model of `stack_off_vector`: stack the members' off vectors. -/
def stack_off_vector (l : List SpectrumObservation) : PHACountsSpectrum :=
  stack_counts_spectrum (l.map (fun o => o.off_vector))

/-- Numerator of the stacked on-region backscal at bin `k`: the sum over
observations of the on-vector backscal times the off vector's safe-range
counts (source lines 595-597). -/
def bkscal_on_num (l : List SpectrumObservation) (k : ℕ) : ℚ :=
  (l.map (fun o => o.on_vector.backscal.getD k 0 * o.off_vector.countsInSafeRangeAt k)).sum

/-- Numerator of the stacked off-region backscal at bin `k` (source lines
599-600). -/
def bkscal_off_num (l : List SpectrumObservation) (k : ℕ) : ℚ :=
  (l.map (fun o => o.off_vector.backscal.getD k 0 * o.off_vector.countsInSafeRangeAt k)).sum

/-- Model of `stack_backscal`: both numerator arrays are divided pointwise
by the stacked off vector's data; entries whose denominator is exactly
zero are then overwritten with the sentinel `-1` (the source's
`np.where(... == 0)` mask assignment, expressed pointwise).  Returns the
pair (stacked backscal on, stacked backscal off). -/
def stack_backscal (l : List SpectrumObservation) : List ℚ × List ℚ :=
  match l with
  | [] => ([], [])
  | o₀ :: _ =>
    let nb := o₀.on_vector.nbins
    let offData := (stack_off_vector l).data
    ((List.range nb).map (fun k =>
        if offData.getD k 0 = 0 then (-1 : ℚ)
        else bkscal_on_num l k / offData.getD k 0),
      (List.range nb).map (fun k =>
        if offData.getD k 0 = 0 then (-1 : ℚ)
        else bkscal_off_num l k / offData.getD k 0))

/-- Stacked on vector after `setup_counts_vectors`: livetime is the total
livetime, backscal the stacked on-region backscal, obs_id the list of all
input ids. -/
def stacked_on_vector (l : List SpectrumObservation) : PHACountsSpectrum :=
  { stack_on_vector l with
      livetime := total_livetime l
      backscal := (stack_backscal l).1
      obs_id := list_obs_id l }

/-- Stacked off vector after `setup_counts_vectors`. -/
def stacked_off_vector (l : List SpectrumObservation) : PHACountsSpectrum :=
  { stack_off_vector l with
      livetime := total_livetime l
      backscal := (stack_backscal l).2
      obs_id := list_obs_id l }

/-- Result of an IEEE floating-point division: a finite value, an
infinity, or NaN. -/
inductive FVal where
  | fin (q : ℚ)
  | posinf
  | neginf
  | nan
deriving DecidableEq

/-- Whether an `FVal` is NaN. -/
def FVal.isNan : FVal → Bool
  | .nan => true
  | _ => false

/-- IEEE division of two exactly represented values: `0 / 0` is NaN,
`x / 0` with `x ≠ 0` is a signed infinity, otherwise the exact
quotient. -/
def fdiv (x y : ℚ) : FVal :=
  if y = 0 then
    (if x = 0 then .nan else if 0 < x then .posinf else .neginf)
  else .fin (x / y)

/-- Largest finite double, the value `np.nan_to_num` substitutes for
positive infinity. -/
def maxFloat : ℚ := (2 ^ 53 - 1) * 2 ^ 971

/-- Model of `np.nan_to_num` on one entry: NaN becomes zero, infinities
become the extreme finite doubles, finite values pass through. -/
def nan_to_num : FVal → FVal
  | .nan => .fin 0
  | .posinf => .fin maxFloat
  | .neginf => .fin (-maxFloat)
  | .fin q => .fin q

/-- Addition on NaN-carrying values (`none` is NaN, which propagates). -/
def oadd : Option ℚ → Option ℚ → Option ℚ
  | some x, some y => some (x + y)
  | _, _ => none

/-- Multiplication on NaN-carrying values (NaN propagates, also through
zero, as for IEEE NaN). -/
def omul : Option ℚ → Option ℚ → Option ℚ
  | some x, some y => some (x * y)
  | _, _ => none

/-- Sum of a list of NaN-carrying values. -/
def osum (xs : List (Option ℚ)) : Option ℚ :=
  xs.foldr oadd (some 0)

/-- Division of a NaN-carrying numerator by an exact denominator. -/
def odiv (x : Option ℚ) (y : ℚ) : FVal :=
  match x with
  | none => .nan
  | some q => fdiv q y

/-- Entry `l` of the accumulated exposure `aefft` of `stack_aeff` and
`stack_edisp`: the sum over observations of
`aeff.evaluate(fill_nan=True) * livetime`. -/
def aefft_at (l : List SpectrumObservation) (lv : ℕ) : ℚ :=
  (l.map (fun o => o.aeff.evaluateFillNanAt lv * o.livetime)).sum

/-- Model of `stack_aeff`: the per-true-bin livetime-weighted mean
`aefft / total_livetime`, with `True`-energy grid taken from
`obs_list[0]`.  Entries are `FVal` because the source divides without a
NaN guard. -/
def stack_aeff (l : List SpectrumObservation) : List FVal :=
  match l with
  | [] => []
  | o₀ :: _ =>
    (List.range (o₀.e_true.length - 1)).map
      (fun lv => fdiv (aefft_at l lv) (total_livetime l))

/-- Entry (reco `k`, true `lv`) of the accumulated `aefftedisp` matrix of
`stack_edisp`: the sum over observations of the safe-range-restricted
dispersion entry times `aeff * livetime`. -/
def aefftedisp_at (l : List SpectrumObservation) (k lv : ℕ) : Option ℚ :=
  osum (l.map (fun o =>
    omul (o.edisp.pdfInSafeRangeAt o.lo_threshold o.hi_threshold lv k)
      (some (o.aeff.evaluateFillNanAt lv * o.livetime))))

/-- Model of `stack_edisp`: `np.nan_to_num(aefftedisp / aefft)`, stored —
as in the source's final `EnergyDispersion(data=....transpose())` — in
true × reco layout: entry `[lv][k]` of the result. -/
def stack_edisp (l : List SpectrumObservation) : List (List FVal) :=
  match l with
  | [] => []
  | o₀ :: _ =>
    (List.range (o₀.e_true.length - 1)).map (fun lv =>
      (List.range (o₀.e_reco.length - 1)).map (fun k =>
        nan_to_num (odiv (aefftedisp_at l k lv) (aefft_at l lv))))

/-- Model of `SpectrumStats` as used by `stats` / `stats_in_range`:
per-bin (or aggregated) statistics. -/
structure SpectrumStats where
  energy_min : ℚ
  energy_max : ℚ
  n_on : ℤ
  n_off : ℤ
  a_on : ℚ
  a_off : ℚ
  obs_id : List ℤ
  livetime : ℚ
deriving DecidableEq

/-- Default stats record (used only as `headD` fallback for empty
stacking input, which the source does not support). -/
def statsDefault : SpectrumStats :=
  { energy_min := 0, energy_max := 0, n_on := 0, n_off := 0,
    a_on := 0, a_off := 0, obs_id := [], livetime := 0 }

/-- Python `int()` truncation of a rational toward zero. -/
def ratTrunc (q : ℚ) : ℤ :=
  if 0 ≤ q then ⌊q⌋ else ⌈q⌉

/-- Model of `SpectrumObservation.stats`: statistics of one energy bin —
energy edges of the bin, integer-truncated on/off counts, per-bin
backscal values, the observation id and livetime. -/
def SpectrumObservation.stats (o : SpectrumObservation) (idx : ℕ) : SpectrumStats :=
  { energy_min := o.e_reco.getD idx 0
    energy_max := o.e_reco.getD (idx + 1) 0
    n_on := ratTrunc (o.on_vector.data.getD idx 0)
    n_off := ratTrunc (o.off_vector.data.getD idx 0)
    a_on := o.on_vector.backscal.getD idx 0
    a_off := o.off_vector.backscal.getD idx 0
    obs_id := o.obsId
    livetime := o.livetime }

/-- Modelled from the spec: `SpectrumStats.stack` (defined on
`ObservationStats`, outside the provided sources) "sums n_on/n_off/
livetime across inputs, recomputes alpha-dependent derived quantities
... from the summed raw quantities"; fields not determined by the sums
are taken from the first element (they are overwritten by
`stats_in_range` in every use modelled here). -/
def stackStats (xs : List SpectrumStats) : SpectrumStats :=
  { xs.headD statsDefault with
      n_on := (xs.map (fun s => s.n_on)).sum
      n_off := (xs.map (fun s => s.n_off)).sum
      livetime := (xs.map (fun s => s.livetime)).sum }

/-- Model of `SpectrumObservation.stats_in_range`: stack the per-bin stats
of bins `np.arange(bin_min, bin_max)` — that is, `bin_min` through
`bin_max - 1` — then overwrite livetime, obs id, and the energy range
`e_reco[bin_min] .. e_reco[bin_max + 1]`. -/
def SpectrumObservation.stats_in_range (o : SpectrumObservation) (bin_min bin_max : ℕ) :
    SpectrumStats :=
  let idx := List.range' bin_min (bin_max - bin_min)
  { stackStats (idx.map (fun i => o.stats i)) with
      livetime := o.livetime
      obs_id := o.obsId
      energy_min := o.e_reco.getD bin_min 0
      energy_max := o.e_reco.getD (bin_max + 1) 0 }

/-- Model of the property `SpectrumObservation.total_stats`:
`stats_in_range(0, nbins - 1)`. -/
def SpectrumObservation.total_stats (o : SpectrumObservation) : SpectrumStats :=
  o.stats_in_range 0 (o.nbins - 1)

/-- Embedding of a NaN-carrying value into `FVal`. -/
def FVal.ofOpt : Option ℚ → FVal
  | some q => .fin q
  | none => .nan

/-- Result record of `SpectrumObservation.read`, with the optional
constructor arguments of `SpectrumObservation` kept optional (Python
`None` is `none`). -/
structure ReadResult where
  on_vector : PHACountsSpectrum
  aeff : EffectiveAreaTable
  off_vector : Option PHACountsSpectrum
  edisp : Option EnergyDispersion
deriving DecidableEq

/-- Model of `SpectrumObservation.read`.  The on vector is read first
(unguarded in the source; modelled as already loaded), and the companion
file names come from its metadata.  The component readers
(`EnergyDispersion.read`, `PHACountsSpectrum.read`,
`EffectiveAreaTable.read`) are outside the provided sources and are
modelled as abstract stores mapping a file name to `some` content or
`none` for a file whose read raises `IOError`.  The RMF and BKG reads
are wrapped in `try/except IOError` and fall back to `None`; the ARF
read is not guarded, so a missing ARF propagates the error. -/
def SpectrumObservation.read (on_vector : PHACountsSpectrum)
    (rmffile arffile bkgfile : String)
    (rmfStore : String → Option EnergyDispersion)
    (arfStore : String → Option EffectiveAreaTable)
    (bkgStore : String → Option PHACountsSpectrum) : Except Unit ReadResult :=
  let energy_dispersion := rmfStore rmffile
  let off_vector := bkgStore bkgfile
  match arfStore arffile with
  | none => .error ()
  | some effective_area =>
    .ok { on_vector := on_vector, aeff := effective_area,
          off_vector := off_vector, edisp := energy_dispersion }

/-!
Heap-based embedding for the frame property of
`SpectrumObservationStacker.run`.

The pure definitions above cannot express the claim that `run` does not
mutate its input observations, so the stacker is embedded a second time
over an explicit heap: every numpy array and every `PHACountsSpectrum`
object lives in a numbered heap cell; every array creation in the source
(`np.zeros`, `.copy()`, `deepcopy`, the result of an arithmetic
expression that is stored) is an `alloc`, every in-place modification
(`+=`, masked index assignment, attribute assignment on a counts-vector
object) is an `hwrite`.  In this embedding IEEE NaN is not tracked (the
pure model above does that); array entries are plain rationals. -/

/-- Heap record of a `PHACountsSpectrum` object: references to its
array-valued attributes plus its scalar attributes (`Option` fields are
Python `None` until assigned). -/
structure PHAObj where
  energyR : ℕ
  dataR : ℕ
  qualityR : ℕ
  backscalR : Option ℕ
  lo_threshold : ℚ
  hi_threshold : ℚ
  livetime : Option ℚ
  obs_id : List ℤ
deriving DecidableEq

/-- A heap cell: a rational array, a boolean array, a rational matrix, or
a counts-vector object. -/
inductive HVal where
  | qarr (xs : List ℚ)
  | barr (xs : List Bool)
  | qmat (xs : List (List ℚ))
  | phaObj (p : PHAObj)
deriving DecidableEq

/-- A heap: the next fresh cell number and the cell contents. -/
structure Heap where
  next : ℕ
  mem : ℕ → HVal

/-- Allocate a fresh cell holding `v`; returns its number and the new
heap. -/
def Heap.alloc (h : Heap) (v : HVal) : ℕ × Heap :=
  (h.next, ⟨h.next + 1, fun r => if r = h.next then v else h.mem r⟩)

/-- Overwrite cell `r` with `v`. -/
def Heap.hwrite (h : Heap) (r : ℕ) (v : HVal) : Heap :=
  ⟨h.next, fun x => if x = r then v else h.mem x⟩

/-- Read a rational array (other cell kinds read as empty). -/
def Heap.readQ (h : Heap) (r : ℕ) : List ℚ :=
  match h.mem r with
  | .qarr xs => xs
  | _ => []

/-- Read a boolean array. -/
def Heap.readB (h : Heap) (r : ℕ) : List Bool :=
  match h.mem r with
  | .barr xs => xs
  | _ => []

/-- Read a matrix. -/
def Heap.readM (h : Heap) (r : ℕ) : List (List ℚ) :=
  match h.mem r with
  | .qmat xs => xs
  | _ => []

/-- Fallback object for reading a cell that is not a counts vector. -/
def phaObjDefault : PHAObj :=
  { energyR := 0, dataR := 0, qualityR := 0, backscalR := none,
    lo_threshold := 0, hi_threshold := 0, livetime := none, obs_id := [] }

/-- Read a counts-vector object. -/
def Heap.readPha (h : Heap) (r : ℕ) : PHAObj :=
  match h.mem r with
  | .phaObj p => p
  | _ => phaObjDefault

/-- The stacker's view of one observation: references to the on and off
vector objects and to the response arrays (`aeff.energy`, `aeff.data`,
the dispersion matrix and its reco-energy axis). -/
structure ObsRef where
  onR : ℕ
  offR : ℕ
  aeffEnergyR : ℕ
  aeffDataR : ℕ
  edispDataR : ℕ
  edispERecoR : ℕ
deriving DecidableEq

/-- Pointwise array sum, sized by the left operand (numpy `a += b` with
equal shapes). -/
def arrAdd (a b : List ℚ) : List ℚ :=
  (List.range a.length).map (fun k => a.getD k 0 + b.getD k 0)

/-- Pointwise array product, sized by the left operand. -/
def arrMul (a b : List ℚ) : List ℚ :=
  (List.range a.length).map (fun k => a.getD k 0 * b.getD k 0)

/-- Array scaled by a constant. -/
def arrScale (a : List ℚ) (t : ℚ) : List ℚ :=
  a.map (fun x => x * t)

/-- Pointwise array quotient, sized by the numerator (entries with zero
denominator are left at 0 here; the pure model tracks the NaN they
produce, and `stack_backscal` masks them right after). -/
def arrDiv (a b : List ℚ) : List ℚ :=
  (List.range a.length).map (fun k => if b.getD k 0 = 0 then 0 else a.getD k 0 / b.getD k 0)

/-- The masked assignment `arr[np.where(den == 0)] = -1`. -/
def arrMaskNeg1 (a den : List ℚ) : List ℚ :=
  (List.range a.length).map (fun k => if den.getD k 0 = 0 then -1 else a.getD k 0)

/-- Pointwise boolean or, sized by the left operand (`np.logical_or`). -/
def arrOr (a b : List Bool) : List Bool :=
  (List.range a.length).map (fun k => a.getD k false || b.getD k false)

/-- Pointwise matrix sum, sized by the left operand. -/
def matAdd (a b : List (List ℚ)) : List (List ℚ) :=
  (List.range a.length).map (fun i => arrAdd (a.getD i []) (b.getD i []))

/-- Matrix transpose, dimensions taken from the argument. -/
def matTranspose (a : List (List ℚ)) : List (List ℚ) :=
  (List.range (a.headD []).length).map (fun j =>
    (List.range a.length).map (fun i => (a.getD i []).getD j 0))

/-- Each row multiplied pointwise by a vector (numpy broadcasting of
`matrix * vector` along rows). -/
def matRowScale (a : List (List ℚ)) (v : List ℚ) : List (List ℚ) :=
  a.map (fun row => (List.range row.length).map (fun j => row.getD j 0 * v.getD j 0))

/-- Each row divided pointwise by a vector, zero where the denominator is
zero (`np.nan_to_num(matrix / vector)`; infinities are not distinguished
here — see the pure model). -/
def matRowDiv (a : List (List ℚ)) (v : List ℚ) : List (List ℚ) :=
  a.map (fun row => (List.range row.length).map (fun j =>
    if v.getD j 0 = 0 then 0 else row.getD j 0 / v.getD j 0))

/-- The value of `counts_in_safe_range` of the counts-vector object in
cell `r` (computed fresh, as the source property does). -/
def Heap.countsInSafeRange (h : Heap) (r : ℕ) : List ℚ :=
  let p := h.readPha r
  let e := h.readQ p.energyR
  let d := h.readQ p.dataR
  let q := h.readB p.qualityR
  (List.range (e.length - 1)).map (fun k =>
    if binSafeCore e q p.lo_threshold p.hi_threshold k then d.getD k 0 else 0)

/-- Deep copy of the counts-vector object in cell `r`: all its arrays are
copied into fresh cells and a fresh object referencing them is
allocated. -/
def Heap.phaDeepcopy (h : Heap) (r : ℕ) : ℕ × Heap :=
  let p := h.readPha r
  let aE := h.alloc (.qarr (h.readQ p.energyR))
  let aD := aE.2.alloc (.qarr (h.readQ p.dataR))
  let aQ := aD.2.alloc (.barr (h.readB p.qualityR))
  match p.backscalR with
  | none =>
    aQ.2.alloc (.phaObj { p with
      energyR := aE.1
      dataR := aD.1
      qualityR := aQ.1
      backscalR := none })
  | some br =>
    let aB := aQ.2.alloc (.qarr (h.readQ br))
    aB.2.alloc (.phaObj { p with
      energyR := aE.1
      dataR := aD.1
      qualityR := aQ.1
      backscalR := some aB.1 })

/-- Loop body of `stack_counts_spectrum`: `stacked_data +=
spec.counts_in_safe_range` writes the accumulator array in place;
`stacked_quality = np.logical_or(stacked_quality, spec.quality)` binds a
freshly allocated array. -/
def sc_step (sdR : ℕ) (acc : ℕ × Heap) (r : ℕ) : ℕ × Heap :=
  let hh1 := acc.2.hwrite sdR
    (.qarr (arrAdd (acc.2.readQ sdR) (acc.2.countsInSafeRange r)))
  hh1.alloc (.barr (arrOr (hh1.readB acc.1) (hh1.readB (hh1.readPha r).qualityR)))

/-- Heap embedding of `stack_counts_spectrum`: deep-copy the first vector
as template, allocate a zero data array and a zero quality array, fold
the loop body over the inputs, and allocate the stacked object (its
attributes that the constructor leaves `None` stay unassigned).  The
empty input, on which the source raises, allocates an empty template. -/
def Heap.stackCountsSpectrum (h : Heap) (lst : List ℕ) : ℕ × Heap :=
  match lst with
  | [] => h.alloc (.phaObj phaObjDefault)
  | t :: _ =>
    let c := h.phaDeepcopy t
    let tObj := c.2.readPha c.1
    let nb := (c.2.readQ tObj.energyR).length - 1
    let aSd := c.2.alloc (.qarr (List.replicate nb 0))
    let aQ0 := aSd.2.alloc (.barr (List.replicate nb false))
    let fq := lst.foldl (sc_step aSd.1) aQ0
    fq.2.alloc (.phaObj { energyR := tObj.energyR, dataR := aSd.1, qualityR := fq.1,
                          backscalR := none, lo_threshold := tObj.lo_threshold,
                          hi_threshold := tObj.hi_threshold, livetime := none,
                          obs_id := [] })

/-- Loop body of `stack_backscal`: copy each backscal array, then add the
product with the off vector's safe-range counts into the two
accumulator arrays in place. -/
def bk_step (bkonR bkoffR : ℕ) (hh : Heap) (o : ObsRef) : Heap :=
  let onBk := match (hh.readPha o.onR).backscalR with
    | some r => hh.readQ r
    | none => []
  let aCpOn := hh.alloc (.qarr onBk)
  let h2 := aCpOn.2.hwrite bkonR (.qarr (arrAdd (aCpOn.2.readQ bkonR)
    (arrMul (aCpOn.2.readQ aCpOn.1) (aCpOn.2.countsInSafeRange o.offR))))
  let offBk := match (h2.readPha o.offR).backscalR with
    | some r => h2.readQ r
    | none => []
  let aCpOff := h2.alloc (.qarr offBk)
  aCpOff.2.hwrite bkoffR (.qarr (arrAdd (aCpOff.2.readQ bkoffR)
    (arrMul (aCpOff.2.readQ aCpOff.1) (aCpOff.2.countsInSafeRange o.offR))))

/-- Heap embedding of `stack_backscal`: two zero accumulators, the loop,
the two divisions by the stacked off data (fresh arrays), and the masked
sentinel assignment written into those fresh arrays.  Returns the cells
holding the stacked on/off backscal arrays. -/
def Heap.stackBackscal (h : Heap) (obsL : List ObsRef) (stackedOffR : ℕ) :
    (ℕ × ℕ) × Heap :=
  match obsL with
  | [] =>
    let aA := h.alloc (.qarr [])
    let aB := aA.2.alloc (.qarr [])
    ((aA.1, aB.1), aB.2)
  | o₀ :: _ =>
    let nb := (h.readQ (h.readPha o₀.onR).energyR).length - 1
    let aOn := h.alloc (.qarr (List.replicate nb 0))
    let aOff := aOn.2.alloc (.qarr (List.replicate nb 0))
    let h3 := obsL.foldl (bk_step aOn.1 aOff.1) aOff.2
    let offData := h3.readQ (h3.readPha stackedOffR).dataR
    let aSOn := h3.alloc (.qarr (arrDiv (h3.readQ aOn.1) offData))
    let aSOff := aSOn.2.alloc (.qarr (arrDiv (aSOn.2.readQ aOff.1) offData))
    let h6 := aSOff.2.hwrite aSOn.1 (.qarr (arrMaskNeg1 (aSOff.2.readQ aSOn.1) offData))
    let h7 := h6.hwrite aSOff.1 (.qarr (arrMaskNeg1 (h6.readQ aSOff.1) offData))
    ((aSOn.1, aSOff.1), h7)

/-- Total livetime of the observations, read through the heap. -/
def Heap.totalLivetime (h : Heap) (obsL : List ObsRef) : ℚ :=
  (obsL.map (fun o => ((h.readPha o.onR).livetime).getD 0)).sum

/-- List of all observation ids, read through the heap. -/
def Heap.listObsId (h : Heap) (obsL : List ObsRef) : List ℤ :=
  (obsL.map (fun o => (h.readPha o.onR).obs_id)).flatten

/-- Heap embedding of `setup_counts_vectors`: attribute assignments on
the two freshly stacked counts-vector objects (livetime, backscal array
reference, observation ids). -/
def Heap.setupCountsVectors (h : Heap) (obsL : List ObsRef)
    (stackedOnR stackedOffR bkOnR bkOffR : ℕ) : Heap :=
  let t := h.totalLivetime obsL
  let ids := h.listObsId obsL
  let onObj := h.readPha stackedOnR
  let h1 := h.hwrite stackedOnR
    (.phaObj { onObj with livetime := some t, backscalR := some bkOnR, obs_id := ids })
  let offObj := h1.readPha stackedOffR
  h1.hwrite stackedOffR
    (.phaObj { offObj with livetime := some t, backscalR := some bkOffR, obs_id := ids })

/-- Loop body of `stack_aeff`: `aefft += aeff_data * livetime` writes the
accumulator in place (the evaluated effective area and the scaled
temporary are numpy temporaries, pure values here). -/
def aeff_step (aefftR : ℕ) (hh : Heap) (o : ObsRef) : Heap :=
  let t := ((hh.readPha o.onR).livetime).getD 0
  hh.hwrite aefftR (.qarr (arrAdd (hh.readQ aefftR) (arrScale (hh.readQ o.aeffDataR) t)))

/-- Heap embedding of `stack_aeff`.  Returns (energy cell, data cell) of
the stacked table: the data is a fresh array holding
`aefft / total_livetime`; the energy axis is `obs_list[0].e_true`, a
view that aliases the first input's effective-area energy array. -/
def Heap.stackAeff (h : Heap) (obsL : List ObsRef) : (ℕ × ℕ) × Heap :=
  match obsL with
  | [] =>
    let aD := h.alloc (.qarr [])
    ((0, aD.1), aD.2)
  | o₀ :: _ =>
    let nbt := (h.readQ o₀.aeffEnergyR).length - 1
    let aT := h.alloc (.qarr (List.replicate nbt 0))
    let h2 := obsL.foldl (aeff_step aT.1) aT.2
    let total := h2.totalLivetime obsL
    let aD := h2.alloc (.qarr ((h2.readQ aT.1).map
      (fun x => if total = 0 then 0 else x / total)))
    ((o₀.aeffEnergyR, aD.1), aD.2)

/-- The value of `edisp.pdf_in_safe_range(lo, hi)` for the dispersion
matrix in cell `r` (true × reco layout): entries of reco bins outside
the thresholds are zeroed; a fresh matrix value. -/
def Heap.pdfInSafeRange (h : Heap) (r eRecoR : ℕ) (lo hi : ℚ) : List (List ℚ) :=
  let m := h.readM r
  let edges := h.readQ eRecoR
  m.map (fun row => (List.range row.length).map (fun k =>
    if recoSafeCore edges lo hi k then row.getD k 0 else 0))

/-- Loop body of `stack_edisp`: both accumulators are written in place;
the safe-range matrix, its transpose and the row-scaled product are
numpy temporaries. -/
def edisp_step (aefftR aefftedispR : ℕ) (hh : Heap) (o : ObsRef) : Heap :=
  let t := ((hh.readPha o.onR).livetime).getD 0
  let aefftCurrent := arrScale (hh.readQ o.aeffDataR) t
  let h1 := hh.hwrite aefftR (.qarr (arrAdd (hh.readQ aefftR) aefftCurrent))
  let onObj := h1.readPha o.onR
  let pdf := h1.pdfInSafeRange o.edispDataR o.edispERecoR onObj.lo_threshold onObj.hi_threshold
  h1.hwrite aefftedispR
    (.qmat (matAdd (h1.readM aefftedispR) (matRowScale (matTranspose pdf) aefftCurrent)))

/-- Heap embedding of `stack_edisp`.  Returns (e_true cell, e_reco cell,
data cell): the data is the freshly allocated transpose of
`nan_to_num(aefftedisp / aefft)`; the energy axes alias the first
input's arrays (`e_true` is a view of its effective-area energy axis,
`e_reco` a view of its on vector's energy axis). -/
def Heap.stackEdisp (h : Heap) (obsL : List ObsRef) : (ℕ × ℕ × ℕ) × Heap :=
  match obsL with
  | [] =>
    let aD := h.alloc (.qmat [])
    ((0, 0, aD.1), aD.2)
  | o₀ :: _ =>
    let recoBins := (h.readQ (h.readPha o₀.onR).energyR).length - 1
    let trueBins := (h.readQ o₀.aeffEnergyR).length - 1
    let aT := h.alloc (.qarr (List.replicate trueBins 0))
    let aM := aT.2.alloc
      (.qmat (List.replicate recoBins (List.replicate trueBins 0)))
    let h3 := obsL.foldl (edisp_step aT.1 aM.1) aM.2
    let stacked := matRowDiv (h3.readM aM.1) (h3.readQ aT.1)
    let aD := h3.alloc (.qmat (matTranspose stacked))
    ((o₀.aeffEnergyR, (aD.2.readPha o₀.onR).energyR, aD.1), aD.2)

/-- References to the artifacts of a finished stacker run. -/
structure StackedRefs where
  stackedOnR : ℕ
  stackedOffR : ℕ
  aeffEnergyR : ℕ
  aeffDataR : ℕ
  edispETrueR : ℕ
  edispERecoR : ℕ
  edispDataR : ℕ
deriving DecidableEq

/-- Heap embedding of `SpectrumObservationStacker.run`: the four stages in
source order (`stack_counts_vectors` = on, off, backscal, setup; then
`stack_aeff`, `stack_edisp`; `stack_obs` only assembles the record). -/
def Heap.run (h : Heap) (obsL : List ObsRef) : StackedRefs × Heap :=
  let cOn := h.stackCountsSpectrum (obsL.map (fun o => o.onR))
  let cOff := cOn.2.stackCountsSpectrum (obsL.map (fun o => o.offR))
  let bk := cOff.2.stackBackscal obsL cOff.1
  let h4 := bk.2.setupCountsVectors obsL cOn.1 cOff.1 bk.1.1 bk.1.2
  let ae := h4.stackAeff obsL
  let ed := ae.2.stackEdisp obsL
  ({ stackedOnR := cOn.1, stackedOffR := cOff.1, aeffEnergyR := ae.1.1,
     aeffDataR := ae.1.2, edispETrueR := ed.1.1, edispERecoR := ed.1.2.1,
     edispDataR := ed.1.2.2 }, ed.2)

/-- Frame relation: every cell numbered below `n` holds the same value in
`h'` as in `h`, and the allocation frontier of `h'` is at least `n`. -/
def preservedBelow (n : ℕ) (h h' : Heap) : Prop :=
  n ≤ h'.next ∧ ∀ r < n, h'.mem r = h.mem r

/-- All cells reachable from an observation — the two counts-vector
objects, the arrays they reference, and the response arrays — lie below
`n` (input wellformedness for the frame theorem). -/
def ObsRef.below (o : ObsRef) (h : Heap) (n : ℕ) : Prop :=
  o.onR < n ∧ o.offR < n ∧ o.aeffEnergyR < n ∧ o.aeffDataR < n ∧
    o.edispDataR < n ∧ o.edispERecoR < n ∧
    (h.readPha o.onR).energyR < n ∧ (h.readPha o.onR).dataR < n ∧
    (h.readPha o.onR).qualityR < n ∧
    (∀ br, (h.readPha o.onR).backscalR = some br → br < n) ∧
    (h.readPha o.offR).energyR < n ∧ (h.readPha o.offR).dataR < n ∧
    (h.readPha o.offR).qualityR < n ∧
    (∀ br, (h.readPha o.offR).backscalR = some br → br < n)

/-!
Concrete inputs used by the claim theorems, counterexamples and
witnesses.
-/

/-- Concrete heap with one fully allocated observation (cells 0-9), used
by the frame-property witness. -/
def heapC8 : Heap where
  next := 10
  mem := fun r =>
    if r = 0 then .qarr [1, 2]
    else if r = 1 then .qarr [3]
    else if r = 2 then .barr [false]
    else if r = 3 then .qarr [1]
    else if r = 4 then .phaObj
      { energyR := 0, dataR := 1, qualityR := 2, backscalR := some 3,
        lo_threshold := 1, hi_threshold := 2, livetime := some 5, obs_id := [1] }
    else if r = 5 then .qarr [2]
    else if r = 6 then .phaObj
      { energyR := 0, dataR := 5, qualityR := 2, backscalR := some 3,
        lo_threshold := 1, hi_threshold := 2, livetime := some 5, obs_id := [1] }
    else if r = 7 then .qarr [1, 2]
    else if r = 8 then .qarr [4]
    else if r = 9 then .qmat [[1]]
    else .qarr []

/-- The observation living in `heapC8`. -/
def obsRefC8 : ObsRef :=
  { onR := 4, offR := 6, aeffEnergyR := 7, aeffDataR := 8,
    edispDataR := 9, edispERecoR := 0 }

/-- Inputs of the two-observation worked example: observation 1 of C1. -/
def obsC1a : SpectrumObservation :=
  { on_vector :=
      { energy := [1, 2, 3], data := [10, 20], quality := [false, false],
        backscal := [1/10, 1/10], lo_threshold := 1, hi_threshold := 3,
        obs_id := [1], livetime := 100 }
    aeff := { energy := [1, 2, 3], data := [some 1, some 1] }
    off_vector :=
      { energy := [1, 2, 3], data := [5, 5], quality := [false, false],
        backscal := [1/10, 1/10], lo_threshold := 1, hi_threshold := 3,
        obs_id := [1], livetime := 100 }
    edisp := { e_true := [1, 2, 3], e_reco := [1, 2, 3],
               data := [[some 1, some 0], [some 0, some 1]] } }

/-- Observation 2 of C1: same grids and backscal, on-counts [30, 40],
off-counts [10, 10], livetime 200. -/
def obsC1b : SpectrumObservation :=
  { obsC1a with
    on_vector := { obsC1a.on_vector with data := [30, 40], livetime := 200, obs_id := [2] }
    off_vector := { obsC1a.off_vector with data := [10, 10], livetime := 200, obs_id := [2] } }

/-- Single-bin observation whose only bin is quality-flagged but holds a
nonzero count: the counterexample input of C2. -/
def obsC2bad : SpectrumObservation :=
  { on_vector :=
      { energy := [1, 2], data := [1], quality := [true],
        backscal := [1], lo_threshold := 1, hi_threshold := 2,
        obs_id := [1], livetime := 1 }
    aeff := { energy := [1, 2], data := [some 1] }
    off_vector :=
      { energy := [1, 2], data := [1], quality := [true],
        backscal := [1], lo_threshold := 1, hi_threshold := 2,
        obs_id := [1], livetime := 1 }
    edisp := { e_true := [1, 2], e_reco := [1, 2], data := [[some 1]] } }

/-- Single-bin observation with every bin safe, positive livetime, clean
effective area, but a NaN energy-dispersion entry: second
counterexample input of C2, showing the singleton identity also fails
through `np.nan_to_num` when the dispersion itself holds NaN. -/
def obsC2nan : SpectrumObservation :=
  { on_vector :=
      { energy := [1, 2], data := [1], quality := [false],
        backscal := [1], lo_threshold := 1, hi_threshold := 2,
        obs_id := [1], livetime := 1 }
    aeff := { energy := [1, 2], data := [some 1] }
    off_vector :=
      { energy := [1, 2], data := [1], quality := [false],
        backscal := [1], lo_threshold := 1, hi_threshold := 2,
        obs_id := [1], livetime := 1 }
    edisp := { e_true := [1, 2], e_reco := [1, 2], data := [[none]] } }

/-- Single-bin observation with every bin safe, positive livetime and
nonzero effective area: the witness input for the amended C2. -/
def obsC2good : SpectrumObservation :=
  { on_vector :=
      { energy := [1, 2], data := [7], quality := [false],
        backscal := [1], lo_threshold := 1, hi_threshold := 2,
        obs_id := [1], livetime := 3 }
    aeff := { energy := [1, 2], data := [some 2] }
    off_vector :=
      { energy := [1, 2], data := [4], quality := [false],
        backscal := [1], lo_threshold := 1, hi_threshold := 2,
        obs_id := [1], livetime := 3 }
    edisp := { e_true := [1, 2], e_reco := [1, 2], data := [[some 1]] } }

/-- Observation with an off region that saw no counts in the safe range
(off data zero): witness input for C3. -/
def obsC3 : SpectrumObservation :=
  { obsC2good with
    off_vector := { obsC2good.off_vector with data := [0] } }

/-- An observation with its raw on and off counts replaced (quality,
thresholds and grids untouched): used to state that an unsafe bin's raw
counts cannot influence the stacked counts. -/
def SpectrumObservation.withCounts (o : SpectrumObservation) (dOn dOff : List ℚ) :
    SpectrumObservation :=
  { o with on_vector := { o.on_vector with data := dOn }
           off_vector := { o.off_vector with data := dOff } }

/-- Two-bin observation whose second bin is quality-flagged: witness
input for C4. -/
def obsC4 : SpectrumObservation :=
  { obsC1a with
    on_vector := { obsC1a.on_vector with quality := [false, true] }
    off_vector := { obsC1a.off_vector with quality := [false, true] } }

/-! Helper lemmas. -/

/-- Lookup in a mapped range. -/
theorem getD_range_map {α : Type} (f : ℕ → α) (n k : ℕ) (d : α) :
    ((List.range n).map f).getD k d = if k < n then f k else d := by
  by_cases hk : k < n
  · rw [List.getD_eq_getElem]
    · simp [hk]
    · simpa using hk
  · rw [List.getD_eq_default]
    · simp [hk]
    · simpa using Nat.le_of_not_lt hk

/-- A list rebuilt by indexing over its range is itself. -/
theorem range_map_getD {α : Type} (xs : List α) (d : α) :
    (List.range xs.length).map (fun k => xs.getD k d) = xs := by
  apply List.ext_getElem
  · simp
  · intro i h1 h2
    simp [List.getElem?_eq_getElem h2]

/-- Characterization of the NaN-propagating sum: it is NaN exactly when
some summand is, and the exact sum otherwise. -/
theorem osum_eq_ite (xs : List (Option ℚ)) :
    osum xs = if none ∈ xs then none else some ((xs.map (fun x => x.getD 0)).sum) := by
  induction xs with
  | nil => simp [osum]
  | cons x t ih =>
    cases x with
    | none => simp [osum, List.foldr, oadd]
    | some q =>
      by_cases hn : none ∈ t
      · simp only [osum, List.foldr] at ih ⊢
        rw [ih]
        simp [hn, oadd]
      · simp only [osum, List.foldr] at ih ⊢
        rw [ih]
        simp [hn, oadd]

/-- The NaN-propagating sum is invariant under permutation. -/
theorem osum_perm {xs ys : List (Option ℚ)} (h : xs.Perm ys) : osum xs = osum ys := by
  rw [osum_eq_ite, osum_eq_ite]
  by_cases hx : none ∈ xs
  · simp [hx, h.mem_iff.mp hx]
  · have hy : none ∉ ys := fun hm => hx (h.mem_iff.mpr hm)
    simp [hx, hy, (h.map _).sum_eq]

/-! Claim theorems. -/

/-- C1: for the two-observation input with on-counts [10, 20] / [30, 40],
off-counts [5, 5] / [10, 10], uniform backscal 0.1, livetimes 100 s and
200 s, and all bins safe, the stacker produces stacked on-counts
[40, 60], stacked off-counts [15, 15], stacked livetime 300 s on both
stacked vectors, and stacked on-region backscal 0.1 in both bins. -/
theorem C1_two_observation_worked_example :
    (stacked_on_vector [obsC1a, obsC1b]).data = [40, 60] ∧
    (stacked_off_vector [obsC1a, obsC1b]).data = [15, 15] ∧
    (stacked_on_vector [obsC1a, obsC1b]).livetime = 300 ∧
    (stacked_off_vector [obsC1a, obsC1b]).livetime = 300 ∧
    (stacked_on_vector [obsC1a, obsC1b]).backscal = [1/10, 1/10] := by
  refine ⟨?_, ?_, ?_, ?_, ?_⟩ <;>
  · simp [stacked_on_vector, stacked_off_vector, stack_on_vector, stack_off_vector,
      stack_counts_spectrum, stack_backscal, bkscal_on_num, bkscal_off_num,
      total_livetime, SpectrumObservation.livetime,
      PHACountsSpectrum.countsInSafeRangeAt, PHACountsSpectrum.binSafe, binSafeCore,
      PHACountsSpectrum.nbins, obsC1a, obsC1b, List.range_succ]
    norm_num

/-- Changing only the raw counts of a vector does not change bin safety. -/
theorem binSafe_withData (s : PHACountsSpectrum) (d : List ℚ) (k : ℕ) :
    PHACountsSpectrum.binSafe { s with data := d } k = s.binSafe k := rfl

/-- An unsafe bin contributes zero counts whatever the raw counts are. -/
theorem countsInSafeRangeAt_of_unsafe (s : PHACountsSpectrum) (k : ℕ)
    (h : s.binSafe k = false) : s.countsInSafeRangeAt k = 0 := by
  simp [PHACountsSpectrum.countsInSafeRangeAt, h]

/-- C3: for every nonempty observation list and every reco bin `k` in
range, if the stacked off-counts at `k` are exactly zero then the
stacked on-region and off-region backscal at `k` are both the sentinel
`-1`; the zero denominator is absorbed by the sentinel assignment, not
raised as an error (the embedded `stack_backscal` is a total function). -/
theorem C3_backscal_sentinel (o₀ : SpectrumObservation) (rest : List SpectrumObservation)
    (k : ℕ) (hk : k < o₀.on_vector.nbins)
    (h0 : (stack_off_vector (o₀ :: rest)).data.getD k 0 = 0) :
    (stack_backscal (o₀ :: rest)).1.getD k 0 = -1 ∧
    (stack_backscal (o₀ :: rest)).2.getD k 0 = -1 := by
  constructor <;>
  · simp only [stack_backscal]
    rw [getD_range_map, if_pos hk, if_pos h0]

/-- Witness for C3: a single observation whose off vector is zero in its
only (safe) bin yields the sentinel backscal. -/
theorem C3_backscal_sentinel_witness :
    (0 < obsC3.on_vector.nbins ∧ (stack_off_vector [obsC3]).data.getD 0 0 = 0) ∧
    (stack_backscal [obsC3]).1.getD 0 0 = -1 ∧ (stack_backscal [obsC3]).2.getD 0 0 = -1 := by
  have h1 : 0 < obsC3.on_vector.nbins := by
    simp [obsC3, obsC2good, PHACountsSpectrum.nbins]
  have h2 : (stack_off_vector [obsC3]).data.getD 0 0 = 0 := by
    simp [stack_off_vector, stack_counts_spectrum, PHACountsSpectrum.countsInSafeRangeAt,
      PHACountsSpectrum.binSafe, binSafeCore, PHACountsSpectrum.nbins, obsC3, obsC2good,
      List.range_succ]
  exact ⟨⟨h1, h2⟩, C3_backscal_sentinel obsC3 [] 0 h1 h2⟩

/-- C4: if bin `k` is unsafe for observation `o` (outside its thresholds
or quality-flagged — the off vector sharing the grid, quality and
thresholds of the on vector, as the data model prescribes for one
observation), then `o` contributes exactly zero to the stacked on- and
off-counts at `k`: its safe-range counts at `k` vanish, and replacing
its raw on/off counts by anything leaves the stacked counts at `k`
unchanged in any surrounding observation list. -/
theorem C4_safe_range_exclusion (o : SpectrumObservation) (dOn dOff : List ℚ) (k : ℕ)
    (l₁ l₂ : List SpectrumObservation)
    (hE : o.off_vector.energy = o.on_vector.energy)
    (hQ : o.off_vector.quality = o.on_vector.quality)
    (hLo : o.off_vector.lo_threshold = o.on_vector.lo_threshold)
    (hHi : o.off_vector.hi_threshold = o.on_vector.hi_threshold)
    (hUnsafe : o.on_vector.binSafe k = false) :
    o.on_vector.countsInSafeRangeAt k = 0 ∧
    o.off_vector.countsInSafeRangeAt k = 0 ∧
    (stack_on_vector (l₁ ++ o.withCounts dOn dOff :: l₂)).data.getD k 0
      = (stack_on_vector (l₁ ++ o :: l₂)).data.getD k 0 ∧
    (stack_off_vector (l₁ ++ o.withCounts dOn dOff :: l₂)).data.getD k 0
      = (stack_off_vector (l₁ ++ o :: l₂)).data.getD k 0 := by
  have hOffUnsafe : o.off_vector.binSafe k = false := by
    show binSafeCore o.off_vector.energy o.off_vector.quality
      o.off_vector.lo_threshold o.off_vector.hi_threshold k = false
    rw [hE, hQ, hLo, hHi]
    exact hUnsafe
  have hOn0 : o.on_vector.countsInSafeRangeAt k = 0 :=
    countsInSafeRangeAt_of_unsafe _ _ hUnsafe
  have hOff0 : o.off_vector.countsInSafeRangeAt k = 0 :=
    countsInSafeRangeAt_of_unsafe _ _ hOffUnsafe
  have hOn0w : ∀ d : List ℚ,
      PHACountsSpectrum.countsInSafeRangeAt { o.on_vector with data := d } k = 0 :=
    fun d => countsInSafeRangeAt_of_unsafe _ _ ((binSafe_withData _ d k).trans hUnsafe)
  have hOff0w : ∀ d : List ℚ,
      PHACountsSpectrum.countsInSafeRangeAt { o.off_vector with data := d } k = 0 :=
    fun d => countsInSafeRangeAt_of_unsafe _ _ ((binSafe_withData _ d k).trans hOffUnsafe)
  refine ⟨hOn0, hOff0, ?_, ?_⟩ <;>
  · cases l₁ with
    | nil =>
      simp only [stack_on_vector, stack_off_vector, List.nil_append, List.map_cons,
        stack_counts_spectrum, SpectrumObservation.withCounts]
      rw [getD_range_map, getD_range_map]
      simp [PHACountsSpectrum.nbins, hOn0, hOff0, hOn0w, hOff0w]
    | cons h₁ t₁ =>
      simp only [stack_on_vector, stack_off_vector, List.cons_append, List.map_cons,
        List.map_append, stack_counts_spectrum, SpectrumObservation.withCounts]
      rw [getD_range_map, getD_range_map]
      simp [PHACountsSpectrum.nbins, hOn0, hOff0, hOn0w, hOff0w]

/-- Witness for C4: the quality-flagged second bin of `obsC4` contributes
nothing at bin 1, and replacing its counts there changes nothing. -/
theorem C4_safe_range_exclusion_witness :
    obsC4.on_vector.binSafe 1 = false ∧
    obsC4.on_vector.countsInSafeRangeAt 1 = 0 ∧
    obsC4.off_vector.countsInSafeRangeAt 1 = 0 ∧
    (stack_on_vector [obsC4.withCounts [100, 100] [100, 100], obsC1a]).data.getD 1 0
      = (stack_on_vector [obsC4, obsC1a]).data.getD 1 0 ∧
    (stack_off_vector [obsC4.withCounts [100, 100] [100, 100], obsC1a]).data.getD 1 0
      = (stack_off_vector [obsC4, obsC1a]).data.getD 1 0 := by
  have hu : obsC4.on_vector.binSafe 1 = false := by
    simp [obsC4, obsC1a, PHACountsSpectrum.binSafe, binSafeCore]
  have h := C4_safe_range_exclusion obsC4 [100, 100] [100, 100] 1 [] [obsC1a]
    rfl rfl rfl rfl hu
  exact ⟨hu, h.1, h.2.1, h.2.2.1, h.2.2.2⟩

/-- C6: for every (nonempty — the source indexes the first element)
observation list, both stacked vectors carry as livetime exactly the sum
of the members' livetimes. -/
theorem C6_livetime_additivity (l : List SpectrumObservation) (_hl : l ≠ []) :
    (stacked_on_vector l).livetime = (l.map (fun o => o.livetime)).sum ∧
    (stacked_off_vector l).livetime = (l.map (fun o => o.livetime)).sum :=
  ⟨rfl, rfl⟩

/-- Witness for C6 at the two-observation worked example. -/
theorem C6_livetime_additivity_witness :
    [obsC1a, obsC1b] ≠ ([] : List SpectrumObservation) ∧
    (stacked_on_vector [obsC1a, obsC1b]).livetime
      = ([obsC1a, obsC1b].map (fun o => o.livetime)).sum ∧
    (stacked_off_vector [obsC1a, obsC1b]).livetime
      = ([obsC1a, obsC1b].map (fun o => o.livetime)).sum := by
  refine ⟨by simp, C6_livetime_additivity [obsC1a, obsC1b] (by simp)⟩

/-- C7: whenever the companion background file or the companion response
matrix file is missing (and the PHA and ARF themselves load, as the
unguarded source lines require), `read` still returns a result — no
exception surfaces — and the corresponding field (`off_vector` for a
missing background, `edisp` for a missing response) is `none`. -/
theorem C7_read_missing_companions (on_vector : PHACountsSpectrum)
    (rmffile arffile bkgfile : String)
    (rmfStore : String → Option EnergyDispersion)
    (arfStore : String → Option EffectiveAreaTable)
    (bkgStore : String → Option PHACountsSpectrum)
    (a : EffectiveAreaTable) (ha : arfStore arffile = some a)
    (_hmiss : bkgStore bkgfile = none ∨ rmfStore rmffile = none) :
    ∃ res, SpectrumObservation.read on_vector rmffile arffile bkgfile
        rmfStore arfStore bkgStore = Except.ok res ∧
      (bkgStore bkgfile = none → res.off_vector = none) ∧
      (rmfStore rmffile = none → res.edisp = none) := by
  refine ⟨{ on_vector := on_vector, aeff := a,
            off_vector := bkgStore bkgfile, edisp := rmfStore rmffile }, ?_, ?_, ?_⟩
  · simp [SpectrumObservation.read, ha]
  · intro h
    simpa using h
  · intro h
    simpa using h

/-- Witness for C7: stores in which only the ARF is present. -/
theorem C7_read_missing_companions_witness :
    ((fun _ : String => some (EffectiveAreaTable.mk [] [])) ("arf") =
        some (EffectiveAreaTable.mk [] []) ∧
      (fun _ : String => (none : Option PHACountsSpectrum)) ("bkg") = none) ∧
    ∃ res, SpectrumObservation.read emptyPHA ("rmf") ("arf") ("bkg")
        (fun _ => none) (fun _ => some (EffectiveAreaTable.mk [] []))
        (fun _ => none) = Except.ok res ∧
      ((fun _ : String => (none : Option PHACountsSpectrum)) ("bkg") = none →
        res.off_vector = none) ∧
      ((fun _ : String => (none : Option EnergyDispersion)) ("rmf") = none →
        res.edisp = none) :=
  ⟨⟨rfl, rfl⟩, C7_read_missing_companions emptyPHA ("rmf") ("arf") ("bkg")
    (fun _ => none) (fun _ => some (EffectiveAreaTable.mk [] [])) (fun _ => none)
    (EffectiveAreaTable.mk [] []) rfl (Or.inl rfl)⟩

/-- The data of a stacked counts spectrum is invariant under permutation
of the inputs when the two heads share an energy grid. -/
theorem stack_counts_spectrum_data_perm (a b : PHACountsSpectrum)
    (t t' : List PHACountsSpectrum) (hp : (a :: t).Perm (b :: t'))
    (hab : a.energy = b.energy) :
    (stack_counts_spectrum (a :: t)).data = (stack_counts_spectrum (b :: t')).data := by
  simp only [stack_counts_spectrum]
  have hn : a.nbins = b.nbins := by simp [PHACountsSpectrum.nbins, hab]
  rw [hn]
  exact List.map_congr_left
    (fun k _ => (hp.map (fun s => s.countsInSafeRangeAt k)).sum_eq)

/-- C5: permuting an observation list whose members share identical reco-
and true-energy grids leaves the stacked on-counts, off-counts, both
stacked backscal arrays, the stacked effective-area data and the stacked
energy-dispersion data identical. -/
theorem C5_order_independence (l l' : List SpectrumObservation) (hp : l.Perm l')
    (hreco : ∀ o₁ ∈ l, ∀ o₂ ∈ l, o₁.on_vector.energy = o₂.on_vector.energy)
    (hoff : ∀ o₁ ∈ l, ∀ o₂ ∈ l, o₁.off_vector.energy = o₂.off_vector.energy)
    (htrue : ∀ o₁ ∈ l, ∀ o₂ ∈ l, o₁.aeff.energy = o₂.aeff.energy) :
    (stack_on_vector l).data = (stack_on_vector l').data ∧
    (stack_off_vector l).data = (stack_off_vector l').data ∧
    stack_backscal l = stack_backscal l' ∧
    stack_aeff l = stack_aeff l' ∧
    stack_edisp l = stack_edisp l' := by
  cases l with
  | nil =>
    have h : l' = [] := (hp.symm).eq_nil
    subst h
    exact ⟨rfl, rfl, rfl, rfl, rfl⟩
  | cons a t =>
    cases l' with
    | nil => exact absurd hp.eq_nil (by simp)
    | cons b t' =>
      have hal : a ∈ a :: t := List.mem_cons_self a t
      have hbl : b ∈ a :: t := hp.mem_iff.mpr (List.mem_cons_self b t')
      have honE : a.on_vector.energy = b.on_vector.energy :=
        hreco a hal b hbl
      have hoffE : a.off_vector.energy = b.off_vector.energy :=
        hoff a hal b hbl
      have htrueE : a.aeff.energy = b.aeff.energy := htrue a hal b hbl
      have hOn : (stack_on_vector (a :: t)).data = (stack_on_vector (b :: t')).data := by
        have h := stack_counts_spectrum_data_perm a.on_vector b.on_vector
          (t.map (fun o : SpectrumObservation => o.on_vector))
          (t'.map (fun o : SpectrumObservation => o.on_vector))
          (by simpa using hp.map (fun o : SpectrumObservation => o.on_vector)) honE
        simpa [stack_on_vector] using h
      have hOff : (stack_off_vector (a :: t)).data = (stack_off_vector (b :: t')).data := by
        have h := stack_counts_spectrum_data_perm a.off_vector b.off_vector
          (t.map (fun o : SpectrumObservation => o.off_vector))
          (t'.map (fun o : SpectrumObservation => o.off_vector))
          (by simpa using hp.map (fun o : SpectrumObservation => o.off_vector)) hoffE
        simpa [stack_off_vector] using h
      have hnb : a.on_vector.nbins = b.on_vector.nbins := by
        simp [PHACountsSpectrum.nbins, honE]
      have hlive : total_livetime (a :: t) = total_livetime (b :: t') := by
        simpa [total_livetime] using (hp.map (fun o => o.livetime)).sum_eq
      have haefft : ∀ lv, aefft_at (a :: t) lv = aefft_at (b :: t') lv := fun lv => by
        simpa [aefft_at] using
          (hp.map (fun o => o.aeff.evaluateFillNanAt lv * o.livetime)).sum_eq
      have hbkOn : ∀ k, bkscal_on_num (a :: t) k = bkscal_on_num (b :: t') k := fun k => by
        simpa [bkscal_on_num] using (hp.map (fun o =>
          o.on_vector.backscal.getD k 0 * o.off_vector.countsInSafeRangeAt k)).sum_eq
      have hbkOff : ∀ k, bkscal_off_num (a :: t) k = bkscal_off_num (b :: t') k := fun k => by
        simpa [bkscal_off_num] using (hp.map (fun o =>
          o.off_vector.backscal.getD k 0 * o.off_vector.countsInSafeRangeAt k)).sum_eq
      have haed : ∀ k lv, aefftedisp_at (a :: t) k lv = aefftedisp_at (b :: t') k lv :=
        fun k lv => by
          simpa [aefftedisp_at] using osum_perm (hp.map (fun o =>
            omul (o.edisp.pdfInSafeRangeAt o.lo_threshold o.hi_threshold lv k)
              (some (o.aeff.evaluateFillNanAt lv * o.livetime))))
      have hBk : stack_backscal (a :: t) = stack_backscal (b :: t') := by
        simp only [stack_backscal]
        rw [hnb, hOff]
        refine Prod.ext ?_ ?_
        · exact List.map_congr_left (fun k _ => by rw [hbkOn k])
        · exact List.map_congr_left (fun k _ => by rw [hbkOff k])
      have hte : a.e_true = b.e_true := htrueE
      have hre : a.e_reco = b.e_reco := honE
      have hAeff : stack_aeff (a :: t) = stack_aeff (b :: t') := by
        simp only [stack_aeff]
        rw [hte]
        exact List.map_congr_left (fun lv _ => by rw [haefft lv, hlive])
      have hEdisp : stack_edisp (a :: t) = stack_edisp (b :: t') := by
        simp only [stack_edisp]
        rw [hte, hre]
        refine List.map_congr_left (fun lv _ => ?_)
        refine List.map_congr_left (fun k _ => ?_)
        rw [haefft lv, haed k lv]
      exact ⟨hOn, hOff, hBk, hAeff, hEdisp⟩

/-- Witness for C5: swapping the two observations of the worked example
changes none of the stacked arrays. -/
theorem C5_order_independence_witness :
    [obsC1a, obsC1b].Perm [obsC1b, obsC1a] ∧
    (stack_on_vector [obsC1a, obsC1b]).data = (stack_on_vector [obsC1b, obsC1a]).data ∧
    (stack_off_vector [obsC1a, obsC1b]).data = (stack_off_vector [obsC1b, obsC1a]).data ∧
    stack_backscal [obsC1a, obsC1b] = stack_backscal [obsC1b, obsC1a] ∧
    stack_aeff [obsC1a, obsC1b] = stack_aeff [obsC1b, obsC1a] ∧
    stack_edisp [obsC1a, obsC1b] = stack_edisp [obsC1b, obsC1a] := by
  have hp : [obsC1a, obsC1b].Perm [obsC1b, obsC1a] := List.Perm.swap _ _ _
  have hgrid : ∀ o₁ ∈ [obsC1a, obsC1b], ∀ o₂ ∈ [obsC1a, obsC1b],
      o₁.on_vector.energy = o₂.on_vector.energy := by
    intro o₁ h₁ o₂ h₂
    fin_cases h₁ <;> fin_cases h₂ <;> rfl
  have hgridOff : ∀ o₁ ∈ [obsC1a, obsC1b], ∀ o₂ ∈ [obsC1a, obsC1b],
      o₁.off_vector.energy = o₂.off_vector.energy := by
    intro o₁ h₁ o₂ h₂
    fin_cases h₁ <;> fin_cases h₂ <;> rfl
  have hgridT : ∀ o₁ ∈ [obsC1a, obsC1b], ∀ o₂ ∈ [obsC1a, obsC1b],
      o₁.aeff.energy = o₂.aeff.energy := by
    intro o₁ h₁ o₂ h₂
    fin_cases h₁ <;> fin_cases h₂ <;> rfl
  exact ⟨hp, C5_order_independence _ _ hp hgrid hgridOff hgridT⟩

/-- C9: for a well-formed nonempty input set — shared grids, every
livetime strictly positive — no entry of the stacked effective area and
no entry of the stacked energy dispersion is NaN (the stacked dispersion
passes through `nan_to_num`, and the positive total livetime keeps the
effective-area division finite). -/
theorem C9_nan_free (o₀ : SpectrumObservation) (rest : List SpectrumObservation)
    (hlive : ∀ o ∈ o₀ :: rest, 0 < o.livetime)
    (_hreco : ∀ o ∈ o₀ :: rest, o.on_vector.energy = o₀.on_vector.energy)
    (_htrue : ∀ o ∈ o₀ :: rest, o.aeff.energy = o₀.aeff.energy) :
    (∀ x ∈ stack_aeff (o₀ :: rest), x.isNan = false) ∧
    (∀ row ∈ stack_edisp (o₀ :: rest), ∀ x ∈ row, x.isNan = false) := by
  have htot : 0 < total_livetime (o₀ :: rest) := by
    apply List.sum_pos
    · intro q hq
      obtain ⟨o, ho, rfl⟩ := List.mem_map.mp hq
      exact hlive o ho
    · simp
  constructor
  · intro x hx
    simp only [stack_aeff, List.mem_map] at hx
    obtain ⟨lv, _, rfl⟩ := hx
    simp [fdiv, htot.ne', FVal.isNan]
  · intro row hrow x hx
    simp only [stack_edisp, List.mem_map] at hrow
    obtain ⟨lv, _, rfl⟩ := hrow
    simp only [List.mem_map] at hx
    obtain ⟨k, _, rfl⟩ := hx
    cases odiv (aefftedisp_at (o₀ :: rest) k lv) (aefft_at (o₀ :: rest) lv) <;>
      simp [nan_to_num, FVal.isNan]

/-- Witness for C9 at the worked example (positive livetimes, shared
grids). -/
theorem C9_nan_free_witness :
    (∀ o ∈ [obsC1a, obsC1b], 0 < o.livetime) ∧
    (∀ x ∈ stack_aeff [obsC1a, obsC1b], x.isNan = false) ∧
    (∀ row ∈ stack_edisp [obsC1a, obsC1b], ∀ x ∈ row, x.isNan = false) := by
  have hlive : ∀ o ∈ [obsC1a, obsC1b], 0 < o.livetime := by
    intro o ho
    fin_cases ho <;> norm_num [obsC1a, obsC1b, SpectrumObservation.livetime]
  exact ⟨hlive, C9_nan_free obsC1a [obsC1b] hlive
    (by intro o ho; fin_cases ho <;> rfl)
    (by intro o ho; fin_cases ho <;> rfl)⟩

/-- C10: `stats_in_range(bin_min, bin_max)` aggregates the truncated
on/off counts of bins `bin_min` through `bin_max - 1` only — the
`np.arange(bin_min, bin_max)` loop excludes `bin_max` — while reporting
the energy range `e_reco[bin_min] .. e_reco[bin_max + 1]`; `total_stats`
is `stats_in_range(0, nbins - 1)`, so its counts omit the last energy
bin: the full-range sum equals it plus the truncated counts of bin
`nbins - 1`. -/
theorem C10_stats_in_range_bins (o : SpectrumObservation) (bmin bmax : ℕ)
    (_h : bmin < bmax) :
    (o.stats_in_range bmin bmax).n_on
      = ((List.range' bmin (bmax - bmin)).map
          (fun i => ratTrunc (o.on_vector.data.getD i 0))).sum ∧
    (o.stats_in_range bmin bmax).n_off
      = ((List.range' bmin (bmax - bmin)).map
          (fun i => ratTrunc (o.off_vector.data.getD i 0))).sum ∧
    (o.stats_in_range bmin bmax).energy_min = o.e_reco.getD bmin 0 ∧
    (o.stats_in_range bmin bmax).energy_max = o.e_reco.getD (bmax + 1) 0 ∧
    o.total_stats = o.stats_in_range 0 (o.nbins - 1) ∧
    (1 ≤ o.nbins →
      ((List.range o.nbins).map (fun i => ratTrunc (o.on_vector.data.getD i 0))).sum
        = o.total_stats.n_on + ratTrunc (o.on_vector.data.getD (o.nbins - 1) 0)) := by
  refine ⟨?_, ?_, rfl, rfl, rfl, ?_⟩
  · simp [SpectrumObservation.stats_in_range, stackStats, SpectrumObservation.stats,
      Function.comp_def]
  · simp [SpectrumObservation.stats_in_range, stackStats, SpectrumObservation.stats,
      Function.comp_def]
  · intro hn
    have hto : o.total_stats.n_on
        = ((List.range (o.nbins - 1)).map
            (fun i => ratTrunc (o.on_vector.data.getD i 0))).sum := by
      simp [SpectrumObservation.total_stats, SpectrumObservation.stats_in_range,
        stackStats, SpectrumObservation.stats, Function.comp_def, List.range_eq_range']
    rw [hto]
    rw [show o.nbins = (o.nbins - 1) + 1 from (Nat.succ_pred_eq_of_pos hn).symm,
      List.range_succ]
    simp

/-- Witness for C10 at the worked-example observation with
`(bin_min, bin_max) = (0, 1)`. -/
theorem C10_stats_in_range_bins_witness :
    0 < 1 ∧
    ((obsC1a.stats_in_range 0 1).n_on
        = ((List.range' 0 (1 - 0)).map
            (fun i => ratTrunc (obsC1a.on_vector.data.getD i 0))).sum ∧
      (obsC1a.stats_in_range 0 1).n_off
        = ((List.range' 0 (1 - 0)).map
            (fun i => ratTrunc (obsC1a.off_vector.data.getD i 0))).sum ∧
      (obsC1a.stats_in_range 0 1).energy_min = obsC1a.e_reco.getD 0 0 ∧
      (obsC1a.stats_in_range 0 1).energy_max = obsC1a.e_reco.getD (1 + 1) 0 ∧
      obsC1a.total_stats = obsC1a.stats_in_range 0 (obsC1a.nbins - 1) ∧
      (1 ≤ obsC1a.nbins →
        ((List.range obsC1a.nbins).map
            (fun i => ratTrunc (obsC1a.on_vector.data.getD i 0))).sum
          = obsC1a.total_stats.n_on
            + ratTrunc (obsC1a.on_vector.data.getD (obsC1a.nbins - 1) 0))) :=
  ⟨by decide, C10_stats_in_range_bins obsC1a 0 1 (by decide)⟩

/-- Stacking a singleton list reproduces the counts data when every bin
is safe and the data is grid-aligned. -/
theorem stack_single_safe (s : PHACountsSpectrum)
    (hLen : s.data.length = s.nbins)
    (hSafe : ∀ k < s.nbins, s.binSafe k = true) :
    (stack_counts_spectrum [s]).data = s.data := by
  simp only [stack_counts_spectrum]
  rw [← hLen]
  have h : ∀ k ∈ List.range s.data.length,
      (([s] : List PHACountsSpectrum).map (fun x => x.countsInSafeRangeAt k)).sum
        = s.data.getD k 0 := by
    intro k hk
    have hk2 : k < s.nbins := hLen ▸ List.mem_range.mp hk
    simp [PHACountsSpectrum.countsInSafeRangeAt, hSafe k hk2]
  rw [List.map_congr_left h, range_map_getD]

/-- Counterexample to C2 as stated, at two concrete inputs.  For
`obsC2bad`, whose only bin is quality-flagged, stacking the singleton
list does not reproduce the observation's own vectors — the stacked
on-counts are zeroed where the original holds 1.  For `obsC2nan`, which
is safe in every bin with positive livetime and clean effective area
but has a NaN dispersion entry, the identity also fails: the stacked
dispersion entry is 0 (through `np.nan_to_num`) where the original is
NaN — so the amended claim must also exclude NaN dispersion entries. -/
theorem C2_singleton_not_identity :
    (¬ ((stacked_on_vector [obsC2bad]).data = obsC2bad.on_vector.data ∧
      (stacked_off_vector [obsC2bad]).data = obsC2bad.off_vector.data ∧
      stack_aeff [obsC2bad] = obsC2bad.aeff.data.map FVal.ofOpt ∧
      stack_edisp [obsC2bad]
        = obsC2bad.edisp.data.map (fun row => row.map FVal.ofOpt))) ∧
    (¬ ((stacked_on_vector [obsC2nan]).data = obsC2nan.on_vector.data ∧
      (stacked_off_vector [obsC2nan]).data = obsC2nan.off_vector.data ∧
      stack_aeff [obsC2nan] = obsC2nan.aeff.data.map FVal.ofOpt ∧
      stack_edisp [obsC2nan]
        = obsC2nan.edisp.data.map (fun row => row.map FVal.ofOpt))) := by
  constructor
  · rintro ⟨h1, -, -, -⟩
    simp [stacked_on_vector, stack_on_vector, stack_counts_spectrum,
      PHACountsSpectrum.countsInSafeRangeAt, PHACountsSpectrum.binSafe, binSafeCore,
      PHACountsSpectrum.nbins, obsC2bad, List.range_succ] at h1
  · rintro ⟨-, -, -, h4⟩
    simp [stack_edisp, SpectrumObservation.e_true, SpectrumObservation.e_reco,
      aefftedisp_at, aefft_at, osum, oadd, omul, odiv, fdiv, nan_to_num,
      EnergyDispersion.pdfInSafeRangeAt, EnergyDispersion.recoSafe, recoSafeCore,
      EnergyDispersion.entry, EffectiveAreaTable.evaluateFillNanAt, total_livetime,
      SpectrumObservation.livetime, SpectrumObservation.lo_threshold,
      SpectrumObservation.hi_threshold, FVal.ofOpt, obsC2nan, List.range_succ] at h4

/-- C2 (amended): stacking the singleton list of an observation whose
bins are all safe (thresholds cover every bin, no quality flags on
either vector), whose livetime is positive, whose effective area has no
NaN and no zero entry, and whose dispersion covers the safe reco range
with non-NaN entries, reproduces that observation's on/off count data,
effective-area values and energy-dispersion values exactly. -/
theorem C2_singleton_identity_safe (o : SpectrumObservation)
    (hOnLen : o.on_vector.data.length = o.on_vector.nbins)
    (hOffLen : o.off_vector.data.length = o.off_vector.nbins)
    (hOnSafe : ∀ k < o.on_vector.nbins, o.on_vector.binSafe k = true)
    (hOffSafe : ∀ k < o.off_vector.nbins, o.off_vector.binSafe k = true)
    (hLive : 0 < o.livetime)
    (hAeffLen : o.aeff.data.length = o.e_true.length - 1)
    (hAeffSome : ∀ lv < o.e_true.length - 1, (o.aeff.data.getD lv none).isSome = true)
    (hAeffNe : ∀ lv < o.e_true.length - 1, (o.aeff.data.getD lv none).getD 0 ≠ 0)
    (hEdSafe : ∀ k < o.e_reco.length - 1,
      o.edisp.recoSafe o.lo_threshold o.hi_threshold k = true)
    (hEdLen : o.edisp.data.length = o.e_true.length - 1)
    (hEdRow : ∀ row ∈ o.edisp.data, row.length = o.e_reco.length - 1)
    (hEdSome : ∀ lv < o.e_true.length - 1, ∀ k < o.e_reco.length - 1,
      (o.edisp.entry lv k).isSome = true) :
    (stacked_on_vector [o]).data = o.on_vector.data ∧
    (stacked_off_vector [o]).data = o.off_vector.data ∧
    stack_aeff [o] = o.aeff.data.map FVal.ofOpt ∧
    stack_edisp [o] = o.edisp.data.map (fun row => row.map FVal.ofOpt) := by
  have htne : o.livetime ≠ 0 := hLive.ne'
  have htot : total_livetime [o] = o.livetime := by
    simp [total_livetime]
  have haefft : ∀ lv, aefft_at [o] lv = o.aeff.evaluateFillNanAt lv * o.livetime := by
    intro lv
    simp [aefft_at]
  refine ⟨stack_single_safe o.on_vector hOnLen hOnSafe,
    stack_single_safe o.off_vector hOffLen hOffSafe, ?_, ?_⟩
  · simp only [stack_aeff]
    conv_rhs => rw [← range_map_getD o.aeff.data none, List.map_map, hAeffLen]
    refine List.map_congr_left (fun lv hlv => ?_)
    have hlv2 : lv < o.e_true.length - 1 := List.mem_range.mp hlv
    obtain ⟨a, ha⟩ := Option.isSome_iff_exists.mp (hAeffSome lv hlv2)
    have hane : a ≠ 0 := by
      have := hAeffNe lv hlv2
      rw [ha] at this
      simpa using this
    have heval : o.aeff.evaluateFillNanAt lv = a := by
      simp only [EffectiveAreaTable.evaluateFillNanAt]
      rw [ha]
      rfl
    rw [htot, haefft lv, heval, Function.comp_apply, ha]
    simp [fdiv, htne, FVal.ofOpt, mul_div_assoc, div_self htne]
  · simp only [stack_edisp]
    conv_rhs => rw [← range_map_getD o.edisp.data [], List.map_map, hEdLen]
    refine List.map_congr_left (fun lv hlv => ?_)
    have hlv2 : lv < o.e_true.length - 1 := List.mem_range.mp hlv
    obtain ⟨a, ha⟩ := Option.isSome_iff_exists.mp (hAeffSome lv hlv2)
    have hane : a ≠ 0 := by
      have := hAeffNe lv hlv2
      rw [ha] at this
      simpa using this
    have heval : o.aeff.evaluateFillNanAt lv = a := by
      simp only [EffectiveAreaTable.evaluateFillNanAt]
      rw [ha]
      rfl
    have hat : a * o.livetime ≠ 0 := mul_ne_zero hane htne
    have hrowmem : o.edisp.data.getD lv [] ∈ o.edisp.data := by
      have hlt : lv < o.edisp.data.length := by rw [hEdLen]; exact hlv2
      rw [List.getD_eq_getElem _ _ hlt]
      exact List.getElem_mem hlt
    have hrowlen : (o.edisp.data.getD lv []).length = o.e_reco.length - 1 :=
      hEdRow _ hrowmem
    rw [Function.comp_apply]
    conv_rhs => rw [← range_map_getD (o.edisp.data.getD lv []) (some 0),
      List.map_map, hrowlen]
    refine List.map_congr_left (fun k hk => ?_)
    have hk2 : k < o.e_reco.length - 1 := List.mem_range.mp hk
    obtain ⟨d, hd⟩ := Option.isSome_iff_exists.mp (hEdSome lv hlv2 k hk2)
    have hpdf : o.edisp.pdfInSafeRangeAt o.lo_threshold o.hi_threshold lv k = some d := by
      rw [EnergyDispersion.pdfInSafeRangeAt, if_pos (hEdSafe k hk2), hd]
    have haed : aefftedisp_at [o] k lv = some (d * (a * o.livetime)) := by
      simp [aefftedisp_at, osum, oadd, omul, hpdf, heval]
    have hentry : (o.edisp.data.getD lv []).getD k (some 0) = some d := hd
    rw [haed, haefft lv, heval, Function.comp_apply, hentry]
    simp [odiv, fdiv, hat, nan_to_num, FVal.ofOpt, mul_div_assoc, div_self hat]

/-- Witness for the amended C2 at the all-safe single-bin observation. -/
theorem C2_singleton_identity_safe_witness :
    (obsC2good.on_vector.data.length = obsC2good.on_vector.nbins ∧
      (∀ k < obsC2good.on_vector.nbins, obsC2good.on_vector.binSafe k = true) ∧
      0 < obsC2good.livetime) ∧
    ((stacked_on_vector [obsC2good]).data = obsC2good.on_vector.data ∧
      (stacked_off_vector [obsC2good]).data = obsC2good.off_vector.data ∧
      stack_aeff [obsC2good] = obsC2good.aeff.data.map FVal.ofOpt ∧
      stack_edisp [obsC2good]
        = obsC2good.edisp.data.map (fun row => row.map FVal.ofOpt)) := by
  have hsafeOn : ∀ k < obsC2good.on_vector.nbins, obsC2good.on_vector.binSafe k = true := by
    intro k hk
    have hk1 : k = 0 := Nat.lt_one_iff.mp
      (by simpa [obsC2good, PHACountsSpectrum.nbins] using hk)
    subst hk1
    norm_num [obsC2good, PHACountsSpectrum.binSafe, binSafeCore]
  have hsafeOff : ∀ k < obsC2good.off_vector.nbins, obsC2good.off_vector.binSafe k = true := by
    intro k hk
    have hk1 : k = 0 := Nat.lt_one_iff.mp
      (by simpa [obsC2good, PHACountsSpectrum.nbins] using hk)
    subst hk1
    norm_num [obsC2good, PHACountsSpectrum.binSafe, binSafeCore]
  have hliveg : 0 < obsC2good.livetime := by
    norm_num [obsC2good, SpectrumObservation.livetime]
  refine ⟨⟨rfl, hsafeOn, hliveg⟩, ?_⟩
  refine C2_singleton_identity_safe obsC2good rfl rfl hsafeOn hsafeOff hliveg rfl ?_ ?_ ?_
    rfl ?_ ?_
  · intro lv hlv
    have h1 : lv = 0 := Nat.lt_one_iff.mp
      (by simpa [obsC2good, SpectrumObservation.e_true] using hlv)
    subst h1
    rfl
  · intro lv hlv
    have h1 : lv = 0 := Nat.lt_one_iff.mp
      (by simpa [obsC2good, SpectrumObservation.e_true] using hlv)
    subst h1
    norm_num [obsC2good]
  · intro k hk
    have h1 : k = 0 := Nat.lt_one_iff.mp
      (by simpa [obsC2good, SpectrumObservation.e_reco] using hk)
    subst h1
    norm_num [obsC2good, EnergyDispersion.recoSafe, recoSafeCore,
      SpectrumObservation.lo_threshold, SpectrumObservation.hi_threshold]
  · intro row hrow
    simp only [obsC2good] at hrow
    fin_cases hrow
    rfl
  · intro lv hlv k hk
    have h1 : lv = 0 := Nat.lt_one_iff.mp
      (by simpa [obsC2good, SpectrumObservation.e_true] using hlv)
    have h2 : k = 0 := Nat.lt_one_iff.mp
      (by simpa [obsC2good, SpectrumObservation.e_reco] using hk)
    subst h1
    subst h2
    rfl

/-- The frame relation is reflexive on heaps with frontier at least n. -/
theorem preservedBelow_refl {n : ℕ} {h : Heap} (h0 : n ≤ h.next) :
    preservedBelow n h h :=
  ⟨h0, fun _ _ => rfl⟩

/-- The frame relation composes. -/
theorem preservedBelow_trans {n : ℕ} {h₁ h₂ h₃ : Heap}
    (p : preservedBelow n h₁ h₂) (q : preservedBelow n h₂ h₃) :
    preservedBelow n h₁ h₃ :=
  ⟨q.1, fun r hr => (q.2 r hr).trans (p.2 r hr)⟩

/-- Allocation never changes the frontier downward. -/
theorem next_ge_alloc {n : ℕ} {h : Heap} {v : HVal} (h0 : n ≤ h.next) :
    n ≤ (h.alloc v).2.next :=
  Nat.le_succ_of_le h0

/-- Writing never changes the frontier. -/
theorem next_ge_hwrite {n : ℕ} {h : Heap} {r : ℕ} {v : HVal} (h0 : n ≤ h.next) :
    n ≤ (h.hwrite r v).next :=
  h0

/-- Allocation preserves every existing cell. -/
theorem alloc_preservedBelow {n : ℕ} {h : Heap} (h0 : n ≤ h.next) (v : HVal) :
    preservedBelow n h (h.alloc v).2 := by
  refine ⟨next_ge_alloc h0, fun r hr => ?_⟩
  show (if r = h.next then v else h.mem r) = h.mem r
  rw [if_neg]
  omega

/-- Writing a cell at or above `n` preserves every cell below `n`. -/
theorem hwrite_preservedBelow {n : ℕ} {h : Heap} {r : ℕ} (h0 : n ≤ h.next)
    (hr : n ≤ r) (v : HVal) : preservedBelow n h (h.hwrite r v) := by
  refine ⟨h0, fun r2 hr2 => ?_⟩
  show (if r2 = r then v else h.mem r2) = h.mem r2
  rw [if_neg]
  omega

/-- A fold whose every step preserves the frame preserves the frame. -/
theorem foldl_preservedBelow {α β : Type} (g : α → Heap) (step : α → β → α)
    (n : ℕ) (l : List β) :
    ∀ a : α,
      (∀ a' x, x ∈ l → n ≤ (g a').next → preservedBelow n (g a') (g (step a' x))) →
      n ≤ (g a).next →
      preservedBelow n (g a) (g (l.foldl step a)) := by
  induction l with
  | nil =>
    intro a _ h0
    exact preservedBelow_refl h0
  | cons x t ih =>
    intro a hstep h0
    have h1 := hstep a x (List.mem_cons_self x t) h0
    have h2 := ih (step a x)
      (fun a' y hy hn => hstep a' y (List.mem_cons_of_mem x hy) hn) h1.1
    exact preservedBelow_trans h1 h2

/-- Allocation returns a reference at the old frontier. -/
theorem alloc_fst_ge {n : ℕ} {h : Heap} {v : HVal} (h0 : n ≤ h.next) :
    n ≤ (h.alloc v).1 :=
  h0

/-- The deep copy allocates only fresh cells. -/
theorem phaDeepcopy_preservedBelow {n : ℕ} {h : Heap} (r : ℕ) (h0 : n ≤ h.next) :
    preservedBelow n h (h.phaDeepcopy r).2 ∧ n ≤ (h.phaDeepcopy r).1 := by
  simp only [Heap.phaDeepcopy]
  cases hb : (h.readPha r).backscalR with
  | none =>
    simp only [hb]
    refine ⟨preservedBelow_trans (alloc_preservedBelow h0 _)
      (preservedBelow_trans (alloc_preservedBelow (next_ge_alloc h0) _)
        (preservedBelow_trans (alloc_preservedBelow (next_ge_alloc (next_ge_alloc h0)) _)
          (alloc_preservedBelow (next_ge_alloc (next_ge_alloc (next_ge_alloc h0))) _))),
      alloc_fst_ge (next_ge_alloc (next_ge_alloc (next_ge_alloc h0)))⟩
  | some br =>
    simp only [hb]
    refine ⟨preservedBelow_trans (alloc_preservedBelow h0 _)
      (preservedBelow_trans (alloc_preservedBelow (next_ge_alloc h0) _)
        (preservedBelow_trans (alloc_preservedBelow (next_ge_alloc (next_ge_alloc h0)) _)
          (preservedBelow_trans
            (alloc_preservedBelow (next_ge_alloc (next_ge_alloc (next_ge_alloc h0))) _)
            (alloc_preservedBelow
              (next_ge_alloc (next_ge_alloc (next_ge_alloc (next_ge_alloc h0)))) _)))),
      alloc_fst_ge (next_ge_alloc (next_ge_alloc (next_ge_alloc (next_ge_alloc h0))))⟩

/-- One counts-stacking loop step writes only the fresh accumulator. -/
theorem sc_step_preservedBelow {n sdR : ℕ} (hs : n ≤ sdR) (acc : ℕ × Heap) (r : ℕ)
    (h0 : n ≤ acc.2.next) : preservedBelow n acc.2 (sc_step sdR acc r).2 := by
  simp only [sc_step]
  exact preservedBelow_trans (hwrite_preservedBelow h0 hs _)
    (alloc_preservedBelow (next_ge_hwrite h0) _)

/-- The counts-stacking stage preserves all pre-existing cells, and the
stacked object it returns is a fresh cell. -/
theorem stackCountsSpectrum_preservedBelow {n : ℕ} {h : Heap} (lst : List ℕ)
    (h0 : n ≤ h.next) :
    preservedBelow n h (h.stackCountsSpectrum lst).2 ∧
      n ≤ (h.stackCountsSpectrum lst).1 := by
  cases lst with
  | nil =>
    exact ⟨alloc_preservedBelow h0 _, h0⟩
  | cons t rest =>
    simp only [Heap.stackCountsSpectrum]
    set c := h.phaDeepcopy t with hc
    set nb := (c.2.readQ (c.2.readPha c.1).energyR).length - 1 with hnb
    set aSd := c.2.alloc (HVal.qarr (List.replicate nb 0)) with haSd
    set aQ0 := aSd.2.alloc (HVal.barr (List.replicate nb false)) with haQ0
    set fq := (t :: rest).foldl (sc_step aSd.1) aQ0 with hfq
    have pc : preservedBelow n h c.2 ∧ n ≤ c.1 := by
      rw [hc]
      exact phaDeepcopy_preservedBelow t h0
    have p2 : preservedBelow n c.2 aSd.2 := by
      rw [haSd]
      exact alloc_preservedBelow pc.1.1 _
    have hsd : n ≤ aSd.1 := by
      rw [haSd]
      exact alloc_fst_ge pc.1.1
    have p3 : preservedBelow n aSd.2 aQ0.2 := by
      rw [haQ0]
      exact alloc_preservedBelow p2.1 _
    have p4 : preservedBelow n aQ0.2 fq.2 := by
      rw [hfq]
      exact foldl_preservedBelow (fun p : ℕ × Heap => p.2) (sc_step aSd.1) n (t :: rest)
        aQ0 (fun a x _ hn => sc_step_preservedBelow hsd a x hn) p3.1
    have p5 : preservedBelow n h fq.2 :=
      preservedBelow_trans pc.1 (preservedBelow_trans p2 (preservedBelow_trans p3 p4))
    exact ⟨preservedBelow_trans p5 (alloc_preservedBelow p4.1 _), alloc_fst_ge p4.1⟩

/-- One backscal loop step copies into fresh cells and writes only the
two fresh accumulators. -/
theorem bk_step_preservedBelow {n bkonR bkoffR : ℕ} (hOn : n ≤ bkonR)
    (hOff : n ≤ bkoffR) (hh : Heap) (o : ObsRef) (h0 : n ≤ hh.next) :
    preservedBelow n hh (bk_step bkonR bkoffR hh o) := by
  simp only [bk_step]
  exact preservedBelow_trans (alloc_preservedBelow h0 _)
    (preservedBelow_trans (hwrite_preservedBelow (next_ge_alloc h0) hOn _)
      (preservedBelow_trans (alloc_preservedBelow (next_ge_hwrite (next_ge_alloc h0)) _)
        (hwrite_preservedBelow (next_ge_alloc (next_ge_hwrite (next_ge_alloc h0))) hOff _)))

/-- The backscal stage preserves all pre-existing cells. -/
theorem stackBackscal_preservedBelow {n : ℕ} {h : Heap} (obsL : List ObsRef)
    (stackedOffR : ℕ) (h0 : n ≤ h.next) :
    preservedBelow n h (h.stackBackscal obsL stackedOffR).2 := by
  cases obsL with
  | nil =>
    exact preservedBelow_trans (alloc_preservedBelow h0 _)
      (alloc_preservedBelow (next_ge_alloc h0) _)
  | cons o₀ rest =>
    simp only [Heap.stackBackscal]
    set nb := (h.readQ (h.readPha o₀.onR).energyR).length - 1 with hnb
    set aOn := h.alloc (HVal.qarr (List.replicate nb 0)) with haOn
    set aOff := aOn.2.alloc (HVal.qarr (List.replicate nb 0)) with haOff
    set h3 := (o₀ :: rest).foldl (bk_step aOn.1 aOff.1) aOff.2 with hh3
    set offData := h3.readQ (h3.readPha stackedOffR).dataR with hod
    set aSOn := h3.alloc (HVal.qarr (arrDiv (h3.readQ aOn.1) offData)) with haSOn
    set aSOff := aSOn.2.alloc (HVal.qarr (arrDiv (aSOn.2.readQ aOff.1) offData)) with haSOff
    set h6 := aSOff.2.hwrite aSOn.1
      (HVal.qarr (arrMaskNeg1 (aSOff.2.readQ aSOn.1) offData)) with hh6
    have p1 : preservedBelow n h aOn.2 := by
      rw [haOn]
      exact alloc_preservedBelow h0 _
    have hbOn : n ≤ aOn.1 := by
      rw [haOn]
      exact alloc_fst_ge h0
    have p2 : preservedBelow n aOn.2 aOff.2 := by
      rw [haOff]
      exact alloc_preservedBelow p1.1 _
    have hbOff : n ≤ aOff.1 := by
      rw [haOff]
      exact alloc_fst_ge p1.1
    have p3 : preservedBelow n aOff.2 h3 := by
      rw [hh3]
      exact foldl_preservedBelow (fun x : Heap => x) (bk_step aOn.1 aOff.1) n
        (o₀ :: rest) aOff.2 (fun a x _ hn => bk_step_preservedBelow hbOn hbOff a x hn) p2.1
    have p4 : preservedBelow n h3 aSOn.2 := by
      rw [haSOn]
      exact alloc_preservedBelow p3.1 _
    have hsOn : n ≤ aSOn.1 := by
      rw [haSOn]
      exact alloc_fst_ge p3.1
    have p5 : preservedBelow n aSOn.2 aSOff.2 := by
      rw [haSOff]
      exact alloc_preservedBelow p4.1 _
    have hsOff : n ≤ aSOff.1 := by
      rw [haSOff]
      exact alloc_fst_ge p4.1
    have p6 : preservedBelow n aSOff.2 h6 := by
      rw [hh6]
      exact hwrite_preservedBelow p5.1 hsOn _
    have p7 : preservedBelow n h6
        (h6.hwrite aSOff.1 (HVal.qarr (arrMaskNeg1 (h6.readQ aSOff.1) offData))) :=
      hwrite_preservedBelow p6.1 hsOff _
    exact preservedBelow_trans p1 (preservedBelow_trans p2 (preservedBelow_trans p3
      (preservedBelow_trans p4 (preservedBelow_trans p5 (preservedBelow_trans p6 p7)))))

/-- The attribute-assignment stage writes only the two freshly stacked
objects. -/
theorem setupCountsVectors_preservedBelow {n : ℕ} {h : Heap} (obsL : List ObsRef)
    {stackedOnR stackedOffR : ℕ} (bkOnR bkOffR : ℕ) (hOn : n ≤ stackedOnR)
    (hOff : n ≤ stackedOffR) (h0 : n ≤ h.next) :
    preservedBelow n h (h.setupCountsVectors obsL stackedOnR stackedOffR bkOnR bkOffR) := by
  simp only [Heap.setupCountsVectors]
  exact preservedBelow_trans (hwrite_preservedBelow h0 hOn _)
    (hwrite_preservedBelow (next_ge_hwrite h0) hOff _)

/-- One effective-area loop step writes only the fresh accumulator. -/
theorem aeff_step_preservedBelow {n aefftR : ℕ} (hT : n ≤ aefftR) (hh : Heap)
    (o : ObsRef) (h0 : n ≤ hh.next) : preservedBelow n hh (aeff_step aefftR hh o) := by
  simp only [aeff_step]
  exact hwrite_preservedBelow h0 hT _

/-- The effective-area stage preserves all pre-existing cells. -/
theorem stackAeff_preservedBelow {n : ℕ} {h : Heap} (obsL : List ObsRef)
    (h0 : n ≤ h.next) : preservedBelow n h (h.stackAeff obsL).2 := by
  cases obsL with
  | nil => exact alloc_preservedBelow h0 _
  | cons o₀ rest =>
    simp only [Heap.stackAeff]
    set nbt := (h.readQ o₀.aeffEnergyR).length - 1 with hnbt
    set aT := h.alloc (HVal.qarr (List.replicate nbt 0)) with haT
    set h2 := (o₀ :: rest).foldl (aeff_step aT.1) aT.2 with hh2
    have p1 : preservedBelow n h aT.2 := by
      rw [haT]
      exact alloc_preservedBelow h0 _
    have hbT : n ≤ aT.1 := by
      rw [haT]
      exact alloc_fst_ge h0
    have p2 : preservedBelow n aT.2 h2 := by
      rw [hh2]
      exact foldl_preservedBelow (fun x : Heap => x) (aeff_step aT.1) n (o₀ :: rest)
        aT.2 (fun a x _ hn => aeff_step_preservedBelow hbT a x hn) p1.1
    exact preservedBelow_trans p1 (preservedBelow_trans p2 (alloc_preservedBelow p2.1 _))

/-- One energy-dispersion loop step writes only the two fresh
accumulators. -/
theorem edisp_step_preservedBelow {n aefftR aefftedispR : ℕ} (hT : n ≤ aefftR)
    (hM : n ≤ aefftedispR) (hh : Heap) (o : ObsRef) (h0 : n ≤ hh.next) :
    preservedBelow n hh (edisp_step aefftR aefftedispR hh o) := by
  simp only [edisp_step]
  exact preservedBelow_trans (hwrite_preservedBelow h0 hT _)
    (hwrite_preservedBelow (next_ge_hwrite h0) hM _)

/-- The energy-dispersion stage preserves all pre-existing cells. -/
theorem stackEdisp_preservedBelow {n : ℕ} {h : Heap} (obsL : List ObsRef)
    (h0 : n ≤ h.next) : preservedBelow n h (h.stackEdisp obsL).2 := by
  cases obsL with
  | nil => exact alloc_preservedBelow h0 _
  | cons o₀ rest =>
    simp only [Heap.stackEdisp]
    set recoBins := (h.readQ (h.readPha o₀.onR).energyR).length - 1 with hrb
    set trueBins := (h.readQ o₀.aeffEnergyR).length - 1 with htb
    set aT := h.alloc (HVal.qarr (List.replicate trueBins 0)) with haT
    set aM := aT.2.alloc
      (HVal.qmat (List.replicate recoBins (List.replicate trueBins 0))) with haM
    set h3 := (o₀ :: rest).foldl (edisp_step aT.1 aM.1) aM.2 with hh3
    have p1 : preservedBelow n h aT.2 := by
      rw [haT]
      exact alloc_preservedBelow h0 _
    have hbT : n ≤ aT.1 := by
      rw [haT]
      exact alloc_fst_ge h0
    have p2 : preservedBelow n aT.2 aM.2 := by
      rw [haM]
      exact alloc_preservedBelow p1.1 _
    have hbM : n ≤ aM.1 := by
      rw [haM]
      exact alloc_fst_ge p1.1
    have p3 : preservedBelow n aM.2 h3 := by
      rw [hh3]
      exact foldl_preservedBelow (fun x : Heap => x) (edisp_step aT.1 aM.1) n
        (o₀ :: rest) aM.2 (fun a x _ hn => edisp_step_preservedBelow hbT hbM a x hn) p2.1
    exact preservedBelow_trans p1 (preservedBelow_trans p2
      (preservedBelow_trans p3 (alloc_preservedBelow p3.1 _)))

/-- A full stacker run preserves every pre-existing heap cell. -/
theorem run_preservedBelow {n : ℕ} {h : Heap} (obsL : List ObsRef)
    (h0 : n ≤ h.next) : preservedBelow n h (h.run obsL).2 := by
  simp only [Heap.run]
  set cOn := h.stackCountsSpectrum (obsL.map (fun o => o.onR)) with hcOn
  set cOff := cOn.2.stackCountsSpectrum (obsL.map (fun o => o.offR)) with hcOff
  set bk := cOff.2.stackBackscal obsL cOff.1 with hbk
  set h4 := bk.2.setupCountsVectors obsL cOn.1 cOff.1 bk.1.1 bk.1.2 with hh4
  set ae := h4.stackAeff obsL with hae
  have p1 : preservedBelow n h cOn.2 ∧ n ≤ cOn.1 := by
    rw [hcOn]
    exact stackCountsSpectrum_preservedBelow _ h0
  have p2 : preservedBelow n cOn.2 cOff.2 ∧ n ≤ cOff.1 := by
    rw [hcOff]
    exact stackCountsSpectrum_preservedBelow _ p1.1.1
  have p3 : preservedBelow n cOff.2 bk.2 := by
    rw [hbk]
    exact stackBackscal_preservedBelow obsL cOff.1 p2.1.1
  have p4 : preservedBelow n bk.2 h4 := by
    rw [hh4]
    exact setupCountsVectors_preservedBelow obsL bk.1.1 bk.1.2 p1.2 p2.2 p3.1
  have p5 : preservedBelow n h4 ae.2 := by
    rw [hae]
    exact stackAeff_preservedBelow obsL p4.1
  have p6 : preservedBelow n ae.2 (ae.2.stackEdisp obsL).2 :=
    stackEdisp_preservedBelow obsL p5.1
  exact preservedBelow_trans p1.1 (preservedBelow_trans p2.1 (preservedBelow_trans p3
    (preservedBelow_trans p4 (preservedBelow_trans p5 p6))))

/-- C8: a stacker run never mutates its inputs.  In the heap embedding —
where every array and every counts-vector object of the inputs is a heap
cell and the run's writes are explicit — every cell that exists before
`run` holds the same value afterwards; in particular each input
observation's counts-vector objects (carrying livetime, thresholds and
ids), its on/off data, quality, energy and backscal arrays, and its
effective-area and energy-dispersion arrays are unchanged.  Only freshly
allocated cells (the stacked artifacts) are ever written. -/
theorem C8_run_preserves_inputs (h : Heap) (obsL : List ObsRef)
    (hwf : ∀ o ∈ obsL, o.below h h.next) :
    (∀ r < h.next, (h.run obsL).2.mem r = h.mem r) ∧
    ∀ o ∈ obsL,
      (h.run obsL).2.mem o.onR = h.mem o.onR ∧
      (h.run obsL).2.mem o.offR = h.mem o.offR ∧
      (h.run obsL).2.mem (h.readPha o.onR).dataR = h.mem (h.readPha o.onR).dataR ∧
      (h.run obsL).2.mem (h.readPha o.onR).qualityR
        = h.mem (h.readPha o.onR).qualityR ∧
      (h.run obsL).2.mem (h.readPha o.onR).energyR
        = h.mem (h.readPha o.onR).energyR ∧
      (∀ br, (h.readPha o.onR).backscalR = some br →
        (h.run obsL).2.mem br = h.mem br) ∧
      (h.run obsL).2.mem (h.readPha o.offR).dataR = h.mem (h.readPha o.offR).dataR ∧
      (h.run obsL).2.mem (h.readPha o.offR).qualityR
        = h.mem (h.readPha o.offR).qualityR ∧
      (h.run obsL).2.mem (h.readPha o.offR).energyR
        = h.mem (h.readPha o.offR).energyR ∧
      (∀ br, (h.readPha o.offR).backscalR = some br →
        (h.run obsL).2.mem br = h.mem br) ∧
      (h.run obsL).2.mem o.aeffEnergyR = h.mem o.aeffEnergyR ∧
      (h.run obsL).2.mem o.aeffDataR = h.mem o.aeffDataR ∧
      (h.run obsL).2.mem o.edispDataR = h.mem o.edispDataR ∧
      (h.run obsL).2.mem o.edispERecoR = h.mem o.edispERecoR := by
  have hp := run_preservedBelow (n := h.next) (h := h) obsL le_rfl
  refine ⟨fun r hr => hp.2 r hr, fun o ho => ?_⟩
  obtain ⟨b1, b2, b3, b4, b5, b6, b7, b8, b9, b10, b11, b12, b13, b14⟩ := hwf o ho
  exact ⟨hp.2 _ b1, hp.2 _ b2, hp.2 _ b8, hp.2 _ b9, hp.2 _ b7,
    fun br hbr => hp.2 _ (b10 br hbr), hp.2 _ b12, hp.2 _ b13, hp.2 _ b11,
    fun br hbr => hp.2 _ (b14 br hbr), hp.2 _ b3, hp.2 _ b4, hp.2 _ b5, hp.2 _ b6⟩

/-- Witness for C8: the concrete one-observation heap satisfies the
wellformedness hypothesis, and running the stacker leaves the
observation's on-vector object cell unchanged. -/
theorem C8_run_preserves_inputs_witness :
    (∀ o ∈ [obsRefC8], o.below heapC8 heapC8.next) ∧
    (heapC8.run [obsRefC8]).2.mem obsRefC8.onR = heapC8.mem obsRefC8.onR := by
  have hwf : ∀ o ∈ [obsRefC8], o.below heapC8 heapC8.next := by
    intro o ho
    have ho2 : o = obsRefC8 := by simpa using ho
    subst ho2
    refine ⟨?_, ?_, ?_, ?_, ?_, ?_, ?_, ?_, ?_, ?_, ?_, ?_, ?_, ?_⟩ <;>
      first
        | (intro br hbr
           simp [heapC8, Heap.readPha, obsRefC8] at hbr
           omega)
        | norm_num [heapC8, Heap.readPha, obsRefC8]
  exact ⟨hwf, ((C8_run_preserves_inputs heapC8 [obsRefC8] hwf).2 obsRefC8
    (List.mem_cons_self _ _)).1⟩

end Gammapy
